import Mathlib

/-!
Shallow embedding of the rjvm virtual machine core (src/vm/src/vm.rs) and
of the collaborating components it drives.  Components whose sources are
not part of this repository snapshot (class manager, object allocator,
call frames, object model, native helpers) are modelled from the
specification, as indicated by the doc comments of the corresponding
definitions.  References into the heap are modelled as indices into a
list of heap objects; Rust panics (process aborts) are modelled by the
`aborted` outcome of `StepResult`.
-/

set_option linter.unusedVariables false

namespace RJVM

/-- JVM primitive base types (rjvm_reader::field_type::BaseType). -/
inductive BaseType where
  | byte
  | char
  | double
  | float
  | int
  | long
  | short
  | boolean
deriving DecidableEq

/-- Element type of a java array (array_entry_type.rs): a primitive base
type, a reference type identified by class id, or a nested array. -/
inductive ArrayEntryType where
  | base (b : BaseType)
  | object (classId : Nat)
  | array
deriving DecidableEq

/-- Runtime values (value.rs; spec section 3): a tagged variant over
Int, Long, Float, Double, Object reference, Null and ReturnAddress.
Float and double payloads are carried as raw bit patterns, which no
operation in this development inspects. -/
inductive Value where
  | int (v : Int)
  | long (v : Int)
  | float (bits : Nat)
  | double (bits : Nat)
  | object (r : Nat)
  | null
  | returnAddress (pc : Nat)
deriving DecidableEq

/-- Internal (structural) VM errors (vm_error.rs), restricted to the
variants used by the code under verification. -/
inductive VmError where
  | validationException
  | notImplemented
  | methodNotFoundException (className methodName descriptor : String)
deriving DecidableEq

/-- Failure of a method call (exceptions.rs): either an internal error or
a thrown java object, identified by its reference. -/
inductive MethodCallFailed where
  | internalError (e : VmError)
  | exceptionThrown (r : Nat)
deriving DecidableEq

/-- One captured stack-trace entry (stack_trace_element.rs; spec section
4.H): declaring class name, method name, optional source file and
optional line number.  It stores no object references, as witnessed by
the construction in Vm::new_java_lang_stack_trace_element_object, which
reads exactly these four components. -/
structure StackTraceElement where
  className : String
  methodName : String
  sourceFile : Option String
  lineNumber : Option Nat
deriving DecidableEq

/-- Modelled from the spec: field slot kinds, used to zero-initialize the
slots of a freshly allocated instance ("never null-init references —
zero-value per slot kind"). -/
inductive FieldKind where
  | reference
  | intLike
  | longKind
  | floatKind
  | doubleKind
deriving DecidableEq

/-- Zero value of a field slot, per kind. -/
def FieldKind.defaultValue : FieldKind → Value
  | .reference => .null
  | .intLike => .int 0
  | .longKind => .long 0
  | .floatKind => .float 0
  | .doubleKind => .double 0

/-- A method as the vm layer sees it: name, type descriptor and the
native flag (class_file_method.rs). -/
structure Method where
  name : String
  descriptor : String
  isNative : Bool
deriving DecidableEq

/-- A loaded class (class.rs): binary name, the id assigned by the class
manager, the kinds of its instance-field slots (including inherited
ones) and its methods. -/
structure Class where
  name : String
  id : Nat
  fieldKinds : List FieldKind
  methods : List Method
deriving DecidableEq

/-- Class::find_method: first method matching name and descriptor. -/
def Class.findMethod (c : Class) (name descriptor : String) : Option Method :=
  c.methods.find? (fun m => m.name == name && m.descriptor == descriptor)

/-- A resolved (class, method) pair (class_and_method.rs). -/
structure ClassAndMethod where
  cls : Class
  method : Method
deriving DecidableEq

/-- Payload of a heap object: an instance with its class id and field
slots, or an array with its element type and element slots (spec
section 3, Object). -/
inductive HeapData where
  | instanceOf (classId : Nat) (fields : List Value)
  | arrayOf (elementsType : ArrayEntryType) (elements : List Value)
deriving DecidableEq

/-- A heap object: header identity hash plus payload.  The identity hash
is assigned at allocation and preserved by garbage collection (spec
section 4.E post-condition); it is not required to be unique. -/
structure HeapObject where
  identityHash : Int
  data : HeapData
deriving DecidableEq

/-- Modelled from the spec: the managed heap of the object allocator
(gc.rs): a region of fixed capacity `maxMemory` with a bump pointer
`used`.  Objects are modelled as a list, references as indices. -/
structure Heap where
  objects : List HeapObject
  used : Nat
  maxMemory : Nat
deriving DecidableEq

/-- Alignment of every allocation, per the spec ("aligned to 8 bytes"). -/
def align8 (n : Nat) : Nat := (n + 7) / 8 * 8

/-- Modelled from the spec: size of an object header in the heap. -/
def headerSize : Nat := 16

/-- Modelled from the spec: bytes reserved for an allocation with the
given number of slots ("reserves header_size + payload_size aligned to
8 bytes"); each slot takes 8 bytes. -/
def allocationSize (slots : Nat) : Nat := align8 (headerSize + 8 * slots)

/-- Number of payload slots of a heap object. -/
def HeapData.slotCount : HeapData → Nat
  | .instanceOf _ fields => fields.length
  | .arrayOf _ elements => elements.length

/-- Bytes occupied by a heap object. -/
def heapObjectSize (o : HeapObject) : Nat := allocationSize o.data.slotCount

/-- Zero value of an array slot, per element type. -/
def ArrayEntryType.defaultValue : ArrayEntryType → Value
  | .base b =>
    match b with
    | .long => .long 0
    | .float => .float 0
    | .double => .double 0
    | _ => .int 0
  | .object _ => .null
  | .array => .null

/-- Modelled from the spec: ObjectAllocator::allocate (gc.rs).  Bump
allocation of a zero-initialized instance of the class; fails (returns
none) when the reservation does not fit into the remaining capacity. -/
def Heap.allocate (h : Heap) (c : Class) : Option (Heap × Nat) :=
  if h.used + allocationSize c.fieldKinds.length ≤ h.maxMemory then
    some ({ h with
            objects := h.objects ++
              [⟨Int.ofNat h.objects.length,
                .instanceOf c.id (c.fieldKinds.map FieldKind.defaultValue)⟩],
            used := h.used + allocationSize c.fieldKinds.length },
          h.objects.length)
  else none

/-- Modelled from the spec: ObjectAllocator::allocate_array (gc.rs). -/
def Heap.allocateArray (h : Heap) (et : ArrayEntryType) (len : Nat) :
    Option (Heap × Nat) :=
  if h.used + allocationSize len ≤ h.maxMemory then
    some ({ h with
            objects := h.objects ++
              [⟨Int.ofNat h.objects.length,
                .arrayOf et (List.replicate len et.defaultValue)⟩],
            used := h.used + allocationSize len },
          h.objects.length)
  else none

/-- Object references held directly by one value. -/
def refsOfValue : Value → List Nat
  | .object r => [r]
  | _ => []

/-- Object references held directly by a list of values. -/
def valuesRefs : List Value → List Nat
  | [] => []
  | v :: vs => refsOfValue v ++ valuesRefs vs

/-- Children of a heap object for the mark phase: the references among
its fields or, for arrays, among its elements (spec section 4.E). -/
def HeapObject.children (o : HeapObject) : List Nat :=
  match o.data with
  | .instanceOf _ fields => valuesRefs fields
  | .arrayOf _ elements => valuesRefs elements

/-- Children of the object behind a reference (dangling references have
no children). -/
def refsAt (objs : List HeapObject) (r : Nat) : List Nat :=
  match objs.get? r with
  | some o => o.children
  | none => []

/-- Children of all objects behind a list of references. -/
def refsAtAll (objs : List HeapObject) : List Nat → List Nat
  | [] => []
  | r :: rs => refsAt objs r ++ refsAtAll objs rs

/-- One round of the mark phase: adds all newly discovered children. -/
def markStep (objs : List HeapObject) (acc : List Nat) : List Nat :=
  acc ++ (refsAtAll objs acc).filter (fun r => decide (r ∉ acc))

/-- Iterated mark rounds, fuelled by the heap size. -/
def markIter (objs : List HeapObject) : Nat → List Nat → List Nat
  | 0, acc => acc
  | n + 1, acc => markIter objs n (markStep objs acc)

/-- Modelled from the spec: references reachable from the roots
(depth-first mark, spec section 4.E), computed as a fuelled fixpoint. -/
def reachableFrom (objs : List HeapObject) (roots : List Nat) : List Nat :=
  markIter objs objs.length roots

/-- References that survive a collection with the given roots, in address
order. -/
def survivors (h : Heap) (roots : List Nat) : List Nat :=
  (List.range h.objects.length).filter
    (fun r => decide (r ∈ reachableFrom h.objects roots))

/-- Index of a reference in a list of surviving references: the
forwarding address after compaction. -/
def remapRef (surv : List Nat) (r : Nat) : Nat := surv.indexOf r

/-- Rewrite the reference inside a value to its forwarding address. -/
def remapValue (surv : List Nat) : Value → Value
  | .object r => .object (remapRef surv r)
  | v => v

/-- Rewrite all references in a list of values. -/
def remapValues (surv : List Nat) (vs : List Value) : List Value :=
  vs.map (remapValue surv)

/-- Rewrite all internal references of a heap object; identity hash and
payload shape are preserved (spec section 4.E post-condition). -/
def remapObject (surv : List Nat) (o : HeapObject) : HeapObject :=
  { o with
    data :=
      match o.data with
      | .instanceOf cid fields => .instanceOf cid (remapValues surv fields)
      | .arrayOf et elements => .arrayOf et (remapValues surv elements) }

/-- Total size of a list of heap objects. -/
def sumSizes : List HeapObject → Nat
  | [] => 0
  | o :: os => heapObjectSize o + sumSizes os

/-- Modelled from the spec: mark-compact collection of the heap region
(gc.rs): surviving objects slide to the low end in address order, every
internal reference is rewritten to its forwarding address, and the bump
pointer is reset to the end of live data. -/
def compactHeap (h : Heap) (roots : List Nat) : Heap :=
  let surv := survivors h roots
  let objs := surv.filterMap (fun r => (h.objects.get? r).map (remapObject surv))
  { objects := objs, used := sumSizes objs, maxMemory := h.maxMemory }

/-- One frame of a call stack (call_frame.rs; spec section 3): operand
stack, local variables and program counter. -/
structure Frame where
  operandStack : List Value
  locals : List Value
  pc : Nat
deriving DecidableEq

/-- A call stack (call_stack.rs): a stack of frames, top first. -/
structure CallStack where
  frames : List Frame
deriving DecidableEq

/-- Modelled from the spec: CallFrame's contribution to the GC roots:
every reference-typed slot of the operand stack and of the locals
(spec section 4.F). -/
def Frame.gcRoots (f : Frame) : List Nat :=
  valuesRefs f.operandStack ++ valuesRefs f.locals

/-- Roots contributed by a list of frames. -/
def framesRoots : List Frame → List Nat
  | [] => []
  | f :: fs => f.gcRoots ++ framesRoots fs

/-- Modelled from the spec: CallStack::gc_roots, the reference-typed
slots of every frame of the stack. -/
def CallStack.gcRoots (s : CallStack) : List Nat := framesRoots s.frames

/-- Roots contributed by a list of call stacks. -/
def stacksRoots : List CallStack → List Nat
  | [] => []
  | s :: ss => s.gcRoots ++ stacksRoots ss

/-- The VM state (vm.rs, struct Vm): the heap owned by the object
allocator, the class manager's statics map (class id to the reference
of the static instance), the arena of allocated call stacks, and the
throwable-stack-trace side table keyed by identity hash.  The class
manager's class table and the native-method registry are passed to the
operations that consult them instead of being stored here. -/
structure Vm where
  heap : Heap
  statics : List (Nat × Nat)
  callStacks : List CallStack
  throwableCallStacks : List (Int × List StackTraceElement)
deriving DecidableEq

/-- Lookup in an association list (the model of HashMap reads). -/
def findAssoc {κ α : Type} [DecidableEq κ] (k : κ) : List (κ × α) → Option α
  | [] => none
  | p :: rest => if p.1 = k then some p.2 else findAssoc k rest

/-- Insert-or-replace in an association list (the model of
HashMap::insert). -/
def insertAssoc {κ α : Type} [DecidableEq κ] (k : κ) (v : α)
    (l : List (κ × α)) : List (κ × α) :=
  (k, v) :: l.filter (fun p => decide (p.1 ≠ k))

/-- References of the statics map, in map order (vm.rs lines 385-389). -/
def staticsRefs (l : List (Nat × Nat)) : List Nat := l.map Prod.snd

/-- References embedded in one stack-trace element.  A
StackTraceElement consists of two strings, an optional string and an
optional line number (see its model above), so it embeds no object
reference and this list is empty for every element. -/
def StackTraceElement.references (e : StackTraceElement) : List Nat := []

/-- References embedded in a recorded stack trace. -/
def stackTraceRefs : List StackTraceElement → List Nat
  | [] => []
  | e :: es => e.references ++ stackTraceRefs es

/-- References embedded in the throwable-stack-trace side table. -/
def throwableTableRefs : List (Int × List StackTraceElement) → List Nat
  | [] => []
  | p :: ps => stackTraceRefs p.2 ++ throwableTableRefs ps

/-- The root set collected by Vm::do_garbage_collection (vm.rs lines
384-390): the references of the statics map followed by the gc roots of
every allocated call stack. -/
def Vm.gcRoots (vm : Vm) : List Nat :=
  staticsRefs vm.statics ++ stacksRoots vm.callStacks

/-- Rewrite all references of a frame after compaction. -/
def remapFrame (surv : List Nat) (f : Frame) : Frame :=
  { f with
    operandStack := remapValues surv f.operandStack,
    locals := remapValues surv f.locals }

/-- Rewrite all references of a call stack after compaction. -/
def remapStack (surv : List Nat) (s : CallStack) : CallStack :=
  ⟨s.frames.map (remapFrame surv)⟩

/-- Vm::do_garbage_collection (vm.rs lines 381-398): collect the roots
from the statics map and the allocated call stacks, then run the
mark-compact collection of the allocator over them, rewriting the root
locations to the forwarding addresses.  The throwable side table is not
consulted and not rewritten. -/
def Vm.doGarbageCollection (vm : Vm) : Vm :=
  let roots := vm.gcRoots
  let surv := survivors vm.heap roots
  { heap := compactHeap vm.heap roots,
    statics := vm.statics.map (fun p => (p.1, remapRef surv p.2)),
    callStacks := vm.callStacks.map (remapStack surv),
    throwableCallStacks := vm.throwableCallStacks }

/-- Outcome of a VM operation that can terminate the whole process:
`aborted` models a Rust panic (such as the expect after a failed
allocation retry), which aborts the process instead of returning any
value or error to the embedder. -/
inductive StepResult (α : Type) where
  | ok (a : α)
  | aborted
deriving DecidableEq

/-- Vm::new_object_of_class (vm.rs lines 235-246): try to allocate; on
failure run a garbage collection and retry; if the retry also fails the
expect call panics, aborting the process. -/
def Vm.newObjectOfClass (vm : Vm) (c : Class) : StepResult (Vm × Nat) :=
  match vm.heap.allocate c with
  | some (h, r) => .ok ({ vm with heap := h }, r)
  | none =>
    match vm.doGarbageCollection.heap.allocate c with
    | some (h, r) => .ok ({ vm.doGarbageCollection with heap := h }, r)
    | none => .aborted

/-- Vm::new_array (vm.rs lines 326-343): same retry-then-panic shape as
Vm::new_object_of_class, for array allocations. -/
def Vm.newArray (vm : Vm) (et : ArrayEntryType) (len : Nat) :
    StepResult (Vm × Nat) :=
  match vm.heap.allocateArray et len with
  | some (h, r) => .ok ({ vm with heap := h }, r)
  | none =>
    match vm.doGarbageCollection.heap.allocateArray et len with
    | some (h, r) => .ok ({ vm.doGarbageCollection with heap := h }, r)
    | none => .aborted

/-- Vm::new (vm.rs lines 67-79): empty maps, empty arena, empty heap of
the given capacity.  The native registry, populated separately in the
source, is modelled outside the state. -/
def Vm.new (maxMemory : Nat) : Vm :=
  { heap := ⟨[], 0, maxMemory⟩,
    statics := [],
    callStacks := [],
    throwableCallStacks := [] }

/-- Vm::get_static_instance (vm.rs lines 96-98): read the statics map. -/
def Vm.getStaticInstance (vm : Vm) (classId : Nat) : Option Nat :=
  findAssoc classId vm.statics

/-- AbstractObject::identity_hash_code, read from the header of the
referenced object (the default for a dangling reference is unreachable
in the source, where references are always valid). -/
def Vm.identityHashCode (vm : Vm) (r : Nat) : Int :=
  match vm.heap.objects.get? r with
  | some o => o.identityHash
  | none => 0

/-- Vm::associate_stack_trace_with_throwable (vm.rs lines 357-364):
insert the captured stack trace into the side table under the
throwable's identity hash. -/
def Vm.associateStackTraceWithThrowable (vm : Vm) (throwable : Nat)
    (callStack : List StackTraceElement) : Vm :=
  { vm with
    throwableCallStacks :=
      insertAssoc (vm.identityHashCode throwable) callStack
        vm.throwableCallStacks }

/-- Vm::get_stack_trace_associated_with_throwable (vm.rs lines 366-372):
look the throwable's identity hash up in the side table. -/
def Vm.getStackTraceAssociatedWithThrowable (vm : Vm) (throwable : Nat) :
    Option (List StackTraceElement) :=
  findAssoc (vm.identityHashCode throwable) vm.throwableCallStacks

/-- Result of one method call (call_frame.rs, MethodCallResult): either
an optional return value or a method-call failure. -/
abbrev MethodCallResult := Except MethodCallFailed (Option Value)

/-- A host-implemented native callback (native_methods_registry.rs; spec
section 4.I): receives the vm, the stack, the optional receiver and the
arguments, and produces an updated vm and stack plus a result. -/
abbrev NativeCallback :=
  Vm → CallStack → Option Nat → List Value → StepResult (Vm × CallStack × MethodCallResult)

/-- Modelled from the spec: the native methods registry, a mapping from
(class name, method name, descriptor) to a host callback. -/
abbrev NativeRegistry := List ((String × String × String) × NativeCallback)

/-- NativeMethodsRegistry::get_method, keyed by the class name, the
method name and the method type descriptor. -/
def NativeRegistry.getMethod (reg : NativeRegistry) (cm : ClassAndMethod) :
    Option NativeCallback :=
  findAssoc (cm.cls.name, cm.method.name, cm.method.descriptor) reg

/-- The bytecode interpreter behind CallFrame::execute (call_frame.rs),
which is outside the sources under verification: an oracle receiving the
vm and the stack with the new frame on top, returning the updated vm and
stack together with the result of the execution. -/
abbrev ExecOracle := Vm → CallStack → StepResult (Vm × CallStack × MethodCallResult)

/-- Modelled from the spec: number of frames after which pushing a new
frame fails; the exact bound and error live in call_stack.rs, which is
outside the sources under verification. -/
def maxCallStackDepth : Nat := 1024

/-- Local slots occupied by one argument: long and double take two
slots, the second being an unused filler (spec section 4.F). -/
def Value.localSlots : Value → List Value
  | .long v => [.long v, .null]
  | .double bits => [.double bits, .null]
  | v => [v]

/-- Expansion of an argument list into local slots. -/
def expandArgs : List Value → List Value
  | [] => []
  | v :: vs => v.localSlots ++ expandArgs vs

/-- Locals of a fresh frame: the receiver (when present) at local 0,
then the parameters in declaration order (spec section 4.F). -/
def argsLocals (receiver : Option Nat) (args : List Value) : List Value :=
  (match receiver with
   | some r => [Value.object r]
   | none => []) ++ expandArgs args

/-- Modelled from the spec: CallStack::add_frame (call_stack.rs): push a
frame with an empty operand stack, pre-populated locals and pc 0; the
push can fail (the source returns a Result). -/
def CallStack.addFrame (s : CallStack) (cm : ClassAndMethod)
    (receiver : Option Nat) (args : List Value) : Except VmError CallStack :=
  if s.frames.length < maxCallStackDepth then
    .ok ⟨⟨[], argsLocals receiver args, 0⟩ :: s.frames⟩
  else .error .validationException

/-- Modelled from the spec: CallStack::pop_frame: remove the top frame;
fails on an empty stack. -/
def CallStack.popFrame (s : CallStack) : Option CallStack :=
  match s.frames with
  | [] => none
  | _ :: rest => some ⟨rest⟩

/-- Vm::invoke_native (vm.rs lines 191-216): look the method up in the
registry; execute the callback when present, otherwise fail with the
internal error NotImplemented. -/
def invokeNative (reg : NativeRegistry) (vm : Vm) (stack : CallStack)
    (cm : ClassAndMethod) (receiver : Option Nat) (args : List Value) :
    StepResult (Vm × CallStack × MethodCallResult) :=
  match reg.getMethod cm with
  | some cb => cb vm stack receiver args
  | none => .ok (vm, stack, .error (.internalError .notImplemented))

/-- Vm::invoke (vm.rs lines 172-189): dispatch native methods to the
registry; otherwise push a frame, execute it, and pop the frame again
before returning the execution result (the pop is unconditional; its
expect panics if the stack were empty). -/
def invoke (reg : NativeRegistry) (exec : ExecOracle) (vm : Vm)
    (stack : CallStack) (cm : ClassAndMethod) (receiver : Option Nat)
    (args : List Value) : StepResult (Vm × CallStack × MethodCallResult) :=
  if cm.method.isNative then invokeNative reg vm stack cm receiver args
  else
    match stack.addFrame cm receiver args with
    | .error e => .ok (vm, stack, .error (.internalError e))
    | .ok stack1 =>
      match exec vm stack1 with
      | .aborted => .aborted
      | .ok (vm2, stack2, result) =>
        match stack2.popFrame with
        | none => .aborted
        | some stack3 => .ok (vm2, stack3, result)

/-- Result of ClassManager::get_or_resolve_class (class_manager.rs): a
class loaded by this resolution together with the pending list of
classes that still need class initialization, or a class that was
already loaded. -/
inductive ResolvedClass where
  | newClass (resolved : Class) (toInit : List Class)
  | alreadyLoaded (resolved : Class)
deriving DecidableEq

/-- ResolvedClass::get_class. -/
def ResolvedClass.getClass : ResolvedClass → Class
  | .newClass c _ => c
  | .alreadyLoaded c => c

/-- Modelled from the spec: the class manager's resolution
(class_manager.rs), which loads and links a class by name and returns
the pending initialization list in superclass-before-subclass order; an
oracle here. -/
abbrev ResolveOracle := String → Except VmError ResolvedClass

/-- Outcome of Vm::init_class and of the initialization loop: the
updated vm and stack, the names of the classes whose class initializer
was invoked (an observer recording the invocation order; not a field of
the source state), and the propagated result. -/
structure InitOutcome where
  vm : Vm
  stack : CallStack
  invoked : List String
  result : Except MethodCallFailed Unit

/-- Vm::init_class (vm.rs lines 118-139): create the static instance of
the class, store it in the statics map under the class id, then invoke
the class initializer when the class has one, propagating its failure. -/
def initClass (reg : NativeRegistry) (exec : ExecOracle) (vm : Vm)
    (stack : CallStack) (c : Class) : StepResult InitOutcome :=
  match vm.newObjectOfClass c with
  | .aborted => .aborted
  | .ok (vm1, r) =>
    match c.findMethod "<clinit>" "()V" with
    | none => .ok ⟨{ vm1 with statics := insertAssoc c.id r vm1.statics }, stack, [], .ok ()⟩
    | some m =>
      match invoke reg exec { vm1 with statics := insertAssoc c.id r vm1.statics } stack
          ⟨c, m⟩ none [] with
      | .aborted => .aborted
      | .ok (vm3, stack3, result) =>
        .ok ⟨vm3, stack3, [c.name], result.map (fun _ => ())⟩

/-- The initialization loop of Vm::get_or_resolve_class (vm.rs lines
110-114): initialize each pending class in list order, stopping at the
first failure. -/
def initClasses (reg : NativeRegistry) (exec : ExecOracle) (vm : Vm)
    (stack : CallStack) : List Class → StepResult InitOutcome
  | [] => .ok ⟨vm, stack, [], .ok ()⟩
  | c :: rest =>
    match initClass reg exec vm stack c with
    | .aborted => .aborted
    | .ok o =>
      match o.result with
      | .error f => .ok o
      | .ok () =>
        match initClasses reg exec o.vm o.stack rest with
        | .aborted => .aborted
        | .ok o2 => .ok ⟨o2.vm, o2.stack, o.invoked ++ o2.invoked, o2.result⟩

/-- Vm::get_or_resolve_class (vm.rs lines 104-116): resolve the name
through the class manager; when the resolution loaded new classes, run
the initialization loop over the pending list before returning the
resolved class; failures of the resolution or of any class initializer
are returned to the caller.  The third component records the names of
the classes whose initializer was invoked, in order. -/
def getOrResolveClass (reg : NativeRegistry) (exec : ExecOracle)
    (resolve : ResolveOracle) (vm : Vm) (stack : CallStack) (name : String) :
    StepResult (Vm × CallStack × List String × Except MethodCallFailed Class) :=
  match resolve name with
  | .error e => .ok (vm, stack, [], .error (.internalError e))
  | .ok (.alreadyLoaded c) => .ok (vm, stack, [], .ok c)
  | .ok (.newClass c toInit) =>
    match initClasses reg exec vm stack toInit with
    | .aborted => .aborted
    | .ok o => .ok (o.vm, o.stack, o.invoked, o.result.map (fun _ => c))

/-- Vm::new_object (vm.rs lines 226-233): resolve the class by name,
then allocate a fresh instance of it. -/
def newObject (reg : NativeRegistry) (exec : ExecOracle)
    (resolve : ResolveOracle) (vm : Vm) (stack : CallStack) (name : String) :
    StepResult (Vm × CallStack × Except MethodCallFailed Nat) :=
  match getOrResolveClass reg exec resolve vm stack name with
  | .aborted => .aborted
  | .ok (vm1, stack1, _, .error f) => .ok (vm1, stack1, .error f)
  | .ok (vm1, stack1, _, .ok c) =>
    match vm1.newObjectOfClass c with
    | .aborted => .aborted
    | .ok (vm2, r) => .ok (vm2, stack1, .ok r)

/-- Modelled from the spec: AbstractObject::set_element
(abstract_object.rs): write one array slot, failing out of bounds. -/
def setElement (h : Heap) (r : Nat) (i : Nat) (v : Value) : Option Heap :=
  match h.objects.get? r with
  | some ⟨hash, .arrayOf et es⟩ =>
    if i < es.length then
      some { h with objects := h.objects.set r ⟨hash, .arrayOf et (es.set i v)⟩ }
    else none
  | _ => none

/-- The element-filling loop of Vm::new_java_lang_string_object (vm.rs
lines 259-262): write the values at consecutive indices starting at i;
each write is unwrapped, so a failure panics. -/
def setElements : Heap → Nat → Nat → List Value → Option Heap
  | h, _, _, [] => some h
  | h, r, i, v :: vs =>
    match setElement h r i v with
    | some h1 => setElements h1 r (i + 1) vs
    | none => none

/-- Modelled from the spec: AbstractObject::set_field
(abstract_object.rs): write one field slot of an instance (writes to a
missing slot or a non-instance leave the heap unchanged; both are
unreachable in the source, which writes within the allocated storage). -/
def setField (h : Heap) (r : Nat) (i : Nat) (v : Value) : Heap :=
  match h.objects.get? r with
  | some ⟨hash, .instanceOf cid fs⟩ =>
    { h with objects := h.objects.set r ⟨hash, .instanceOf cid (fs.set i v)⟩ }
  | _ => h

/-- UTF-16 encoding of one unicode scalar value, as produced by Rust's
str::encode_utf16: scalar values below 0x10000 are one code unit,
larger ones a surrogate pair. -/
def encodeChar (c : Char) : List Nat :=
  if c.toNat < 0x10000 then [c.toNat]
  else
    [0xD800 + (c.toNat - 0x10000) / 0x400,
     0xDC00 + (c.toNat - 0x10000) % 0x400]

/-- UTF-16 code units of a list of scalar values. -/
def encodeUtf16 : List Char → List Nat
  | [] => []
  | c :: cs => encodeChar c ++ encodeUtf16 cs

/-- A code unit that is itself a scalar value (not a surrogate). -/
abbrev isBmpScalar (u : Nat) : Prop := u < 0xD800 ∨ (0xE000 ≤ u ∧ u < 0x10000)

/-- Scalar value of a surrogate pair. -/
def combineSurrogates (u v : Nat) : Nat :=
  0x10000 + (u - 0xD800) * 0x400 + (v - 0xDC00)

/-- Modelled from the spec: standard UTF-16 decoding of a sequence of
code units into scalar values; fails on an unpaired surrogate or an
out-of-range unit. -/
def decodeUtf16 : List Nat → Option (List Char)
  | [] => some []
  | [u] => if isBmpScalar u then some [Char.ofNat u] else none
  | u :: v :: rest =>
    if isBmpScalar u then
      match decodeUtf16 (v :: rest) with
      | some cs => some (Char.ofNat u :: cs)
      | none => none
    else if (0xD800 ≤ u ∧ u < 0xDC00) ∧ (0xDC00 ≤ v ∧ v < 0xE000) then
      match decodeUtf16 rest with
      | some cs => some (Char.ofNat (combineSurrogates u v) :: cs)
      | none => none
    else none

/-- One array slot read back as a UTF-16 code unit: the construction
stores code units as nonnegative Int values below 0x10000. -/
def codeUnitOfValue : Value → Option Nat
  | .int i => if 0 ≤ i ∧ i < 0x10000 then some i.toNat else none
  | _ => none

/-- Code units of a list of array slots; fails when a slot does not hold
a code unit. -/
def collectCodeUnits : List Value → Option (List Nat)
  | [] => some []
  | v :: vs =>
    match codeUnitOfValue v with
    | some u =>
      match collectCodeUnits vs with
      | some us => some (u :: us)
      | none => none
    | none => none

/-- Modelled from the spec: string_from_char_array (abstract_object.rs):
decode the elements of a char array into a host string; fails when the
reference is not an array or the contents are not valid UTF-16. -/
def stringFromCharArray (h : Heap) (r : Nat) : Except VmError String :=
  match h.objects.get? r with
  | some ⟨_, .arrayOf _ elems⟩ =>
    match collectCodeUnits elems with
    | some units =>
      match decodeUtf16 units with
      | some cs => .ok (String.mk cs)
      | none => .error .validationException
    | none => .error .validationException
  | _ => .error .validationException

/-- Vm::extract_str_from_java_lang_string (vm.rs lines 81-94): look the
object's class up by id; when the class is java/lang/String and field
slot 0 holds an object reference, decode that char array; in every
other case fail with ValidationException (the class lookup failure maps
to the same error through Vm::get_class_by_id).  The class table of the
class manager is supplied as a lookup function. -/
def extractStrFromJavaLangString (classById : Nat → Option Class) (vm : Vm)
    (r : Nat) : Except VmError String :=
  match vm.heap.objects.get? r with
  | some ⟨_, .instanceOf cid fields⟩ =>
    match classById cid with
    | none => .error .validationException
    | some cls =>
      if cls.name = "java/lang/String" then
        match fields.get? 0 with
        | some (.object arr) => stringFromCharArray vm.heap arr
        | _ => .error .validationException
      else .error .validationException
  | _ => .error .validationException

/-- The char-array contents built by Vm::new_java_lang_string_object
(vm.rs lines 253-256): the UTF-16 code units of the host string, boxed
as int values. -/
def stringUnits (s : String) : List Value :=
  (encodeUtf16 s.data).map (fun u => Value.int (Int.ofNat u))

/-- Vm::new_java_lang_string_object (vm.rs lines 248-277): encode the
host string into UTF-16 code units, allocate a char array of that
length and fill it, allocate a java/lang/String instance, and store the
array at field slot 0 and the int 0 at slots 1 and 6. -/
def newJavaLangStringObject (reg : NativeRegistry) (exec : ExecOracle)
    (resolve : ResolveOracle) (vm : Vm) (stack : CallStack) (s : String) :
    StepResult (Vm × CallStack × Except MethodCallFailed Nat) :=
  match vm.newArray (.base .char) (stringUnits s).length with
  | .aborted => .aborted
  | .ok (vm1, arr) =>
    match setElements vm1.heap arr 0 (stringUnits s) with
    | none => .aborted
    | some h1 =>
      match newObject reg exec resolve { vm1 with heap := h1 } stack
          "java/lang/String" with
      | .aborted => .aborted
      | .ok (vm3, stack3, .error f) => .ok (vm3, stack3, .error f)
      | .ok (vm3, stack3, .ok strRef) =>
        .ok ({ vm3 with
               heap := setField (setField (setField vm3.heap strRef 0 (.object arr))
                 strRef 1 (.int 0)) strRef 6 (.int 0) },
             stack3, .ok strRef)

/-- Copy of a slice between two lists of slots: the target with
positions destPos to destPos + len - 1 replaced by the source slice
starting at srcPos. -/
def listCopy (src : List Value) (srcPos : Nat) (dest : List Value)
    (destPos len : Nat) : List Value :=
  dest.take destPos ++ (src.drop srcPos).take len ++ dest.drop (destPos + len)

/-- Modelled from the spec: the native System.arraycopy helper
array_copy (native_methods_impl.rs): both references must be arrays of
the same element type and both ranges must be in bounds, else a
validation error. -/
def arrayCopy (h : Heap) (src : Nat) (srcPos : Nat) (dest : Nat)
    (destPos : Nat) (len : Nat) : Except VmError Heap :=
  match h.objects.get? src, h.objects.get? dest with
  | some ⟨_, .arrayOf sType ses⟩, some ⟨dHash, .arrayOf dType des⟩ =>
    if srcPos + len ≤ ses.length ∧ destPos + len ≤ des.length ∧ sType = dType then
      .ok { h with
            objects := h.objects.set dest
              ⟨dHash, .arrayOf dType (listCopy ses srcPos des destPos len)⟩ }
    else .error .validationException
  | _, _ => .error .validationException

/-- Vm::clone_array (vm.rs lines 345-355): when the value holds an array
object, allocate a fresh array of the same element type and length and
copy every element into it; any other value is a ValidationException. -/
def cloneArray (vm : Vm) (value : Value) : StepResult (Vm × Except VmError Value) :=
  match value with
  | .object r =>
    match vm.heap.objects.get? r with
    | some ⟨_, .arrayOf et elems⟩ =>
      match vm.newArray et elems.length with
      | .aborted => .aborted
      | .ok (vm1, r1) =>
        match arrayCopy vm1.heap r 0 r1 0 elems.length with
        | .error e => .ok (vm1, .error e)
        | .ok h1 => .ok ({ vm1 with heap := h1 }, .ok (.object r1))
    | _ => .ok (vm, .error .validationException)
  | _ => .ok (vm, .error .validationException)

/-- Names of the classes of a pending list that declare a class
initializer, in list order: the expected clinit invocation trace. -/
def clinitNames (cs : List Class) : List String :=
  (cs.filter (fun c => (c.findMethod "<clinit>" "()V").isSome)).map Class.name

/-- An interpreter oracle that immediately returns void, leaving the vm
and the stack untouched; used to instantiate theorems. -/
def execNop : ExecOracle := fun vm stack => .ok (vm, stack, .ok none)

/-- A fresh vm with one megabyte of heap. -/
def vmEmpty : Vm := Vm.new 1000000

/-- A fresh vm with no heap capacity at all. -/
def vmTiny : Vm := Vm.new 0

/-- An empty call stack. -/
def stackEmpty : CallStack := ⟨[]⟩

/-- A class initializer method, non-native. -/
def clinitMethod : Method := ⟨"<clinit>", "()V", false⟩

/-- Sample class A with a class initializer. -/
def clsA : Class := ⟨"A", 1, [], [clinitMethod]⟩

/-- Sample class B with a class initializer. -/
def clsB : Class := ⟨"B", 2, [], [clinitMethod]⟩

/-- Sample class whose resolution loads A and B. -/
def clsLoaded : Class := ⟨"LoadMe", 3, [], []⟩

/-- Sample class with no class initializer. -/
def clsPlain : Class := ⟨"Plain", 4, [], []⟩

/-- A model of java/lang/String with the seven field slots of the
supplied runtime archive (char array value, int hash, then the
remaining slots, int hash32 at slot 6). -/
def strClass : Class :=
  ⟨"java/lang/String", 5,
   [.reference, .intLike, .reference, .reference, .reference, .intLike, .intLike],
   []⟩

/-- Sample resolution oracle: LoadMe is loaded fresh with the pending
list A before B; java/lang/String is already loaded. -/
def resolveW : ResolveOracle := fun name =>
  if name = "LoadMe" then .ok (.newClass clsLoaded [clsA, clsB])
  else if name = "java/lang/String" then .ok (.alreadyLoaded strClass)
  else .error .validationException

/-- Sample class table by id, consistent with resolveW. -/
def classByIdW : Nat → Option Class := fun id =>
  if id = 5 then some strClass
  else if id = 4 then some clsPlain
  else none

/-- A native method. -/
def natMethod : Method := ⟨"nat", "()V", true⟩

/-- The native method on the sample class. -/
def natCm : ClassAndMethod := ⟨clsPlain, natMethod⟩

/-- A native callback returning void without touching the state. -/
def cbNop : NativeCallback := fun vm stack _ _ => .ok (vm, stack, .ok none)

/-- A registry holding exactly the sample native method. -/
def regNat : NativeRegistry := [(("Plain", "nat", "()V"), cbNop)]

/-- A non-native method. -/
def plainMethod : Method := ⟨"run", "()V", false⟩

/-- The non-native method on the sample class. -/
def plainCm : ClassAndMethod := ⟨clsPlain, plainMethod⟩

/-- A vm whose heap holds two objects with the same identity hash. -/
def vmTwo : Vm :=
  ⟨⟨[⟨7, .instanceOf 1 []⟩, ⟨7, .instanceOf 1 []⟩], 32, 1000⟩, [], [], []⟩

/-- A sample stack-trace element. -/
def steA : StackTraceElement := ⟨"A", "m", none, none⟩

/-- A second sample stack-trace element. -/
def steB : StackTraceElement := ⟨"B", "n", some "B.java", some 3⟩

/-- A vm whose heap holds an int array and a plain instance. -/
def vmArr : Vm :=
  ⟨⟨[⟨0, .arrayOf (.base .int) [.int 5, .int 6]⟩, ⟨1, .instanceOf 4 [.null]⟩],
    48, 1000⟩, [], [], []⟩

/-- A vm whose heap holds a char array, a java/lang/String instance
whose slot 0 references it, and an instance of a class that is not
java/lang/String. -/
def vmStr : Vm :=
  ⟨⟨[⟨0, .arrayOf (.base .char) [.int 104, .int 105]⟩,
     ⟨1, .instanceOf 5 [.object 0, .int 0, .null, .null, .null, .int 0, .int 0]⟩,
     ⟨2, .instanceOf 4 []⟩],
    0, 1000⟩, [], [], []⟩

/-- Indexing into the left part of an append. -/
theorem listGet_append_left {α : Type} :
    ∀ (l1 l2 : List α) (n : Nat), n < l1.length → (l1 ++ l2).get? n = l1.get? n
  | [], _, n, h => absurd h (by simp)
  | a :: l1, l2, 0, _ => rfl
  | a :: l1, l2, n + 1, h => listGet_append_left l1 l2 n (by simpa using h)

/-- Indexing the appended singleton at the length of the prefix. -/
theorem listGet_append_length {α : Type} :
    ∀ (l : List α) (x : α), (l ++ [x]).get? l.length = some x
  | [], _ => rfl
  | a :: l, x => listGet_append_length l x

/-- Setting the appended singleton at the length of the prefix. -/
theorem listSet_append_length {α : Type} :
    ∀ (l : List α) (x y : α), (l ++ [x]).set l.length y = l ++ [y]
  | [], _, _ => rfl
  | a :: l, x, y => by simp [List.set, listSet_append_length l x y]

/-- Setting at the head of the suffix of an append. -/
theorem listSet_append_cons {α : Type} :
    ∀ (l1 : List α) (x : α) (l2 : List α) (y : α),
      (l1 ++ x :: l2).set l1.length y = l1 ++ y :: l2
  | [], _, _, _ => rfl
  | a :: l1, x, l2, y => by simp [List.set, listSet_append_cons l1 x l2 y]

/-- A successful lookup bounds the index. -/
theorem listGet_lt {α : Type} :
    ∀ (l : List α) (n : Nat) (x : α), l.get? n = some x → n < l.length
  | [], n, x, h => by simp [List.get?] at h
  | a :: l, 0, x, _ => by simp
  | a :: l, n + 1, x, h => by
    have := listGet_lt l n x h
    simpa using this

/-- Reading back the slot just set. -/
theorem listGet_set_self {α : Type} :
    ∀ (l : List α) (i : Nat) (x : α), i < l.length → (l.set i x).get? i = some x
  | [], i, x, h => absurd h (by simp)
  | a :: l, 0, x, _ => rfl
  | a :: l, i + 1, x, h => listGet_set_self l i x (by simpa using h)

/-- Reading a slot other than the one just set. -/
theorem listGet_set_ne {α : Type} :
    ∀ (l : List α) (i j : Nat) (x : α), i ≠ j → (l.set i x).get? j = l.get? j
  | [], _, _, _, _ => rfl
  | a :: l, 0, 0, x, h => absurd rfl h
  | a :: l, 0, j + 1, x, _ => rfl
  | a :: l, i + 1, 0, x, _ => rfl
  | a :: l, i + 1, j + 1, x, h => listGet_set_ne l i j x (fun e => h (by rw [e]))

/-- Setting a slot to the value it already holds is the identity. -/
theorem listSet_same {α : Type} :
    ∀ (l : List α) (i : Nat) (x : α), l.get? i = some x → l.set i x = l
  | [], i, x, h => by simp [List.get?] at h
  | a :: l, 0, x, h => by
    have hx : a = x := Option.some.inj h
    simp [List.set, hx]
  | a :: l, i + 1, x, h => by
    simp [List.set, listSet_same l i x h]

/-- Indexing commutes with map. -/
theorem listGet_map {α β : Type} (f : α → β) :
    ∀ (l : List α) (n : Nat), (l.map f).get? n = (l.get? n).map f
  | [], _ => rfl
  | a :: l, 0 => rfl
  | a :: l, n + 1 => listGet_map f l n

/-- Lookup after an insert at the inserted key. -/
theorem findAssoc_insert_self {κ α : Type} [DecidableEq κ] (k : κ) (v : α)
    (l : List (κ × α)) : findAssoc k (insertAssoc k v l) = some v := by
  simp [insertAssoc, findAssoc]

/-- Dropping the entries at one key does not change lookups at another
key. -/
theorem findAssoc_filter_ne {κ α : Type} [DecidableEq κ] (k k2 : κ) (h : k2 ≠ k) :
    ∀ l : List (κ × α),
      findAssoc k2 (List.filter (fun p => decide (p.1 ≠ k)) l) = findAssoc k2 l
  | [] => rfl
  | p :: rest => by
    rw [List.filter_cons]
    by_cases hp : p.1 = k
    · have hd : decide (p.1 ≠ k) = false := by simp [hp]
      rw [hd, if_neg (by simp)]
      rw [findAssoc_filter_ne k k2 h rest]
      have hne : ¬ p.1 = k2 := by
        rw [hp]
        exact fun e => h e.symm
      simp only [findAssoc]
      rw [if_neg hne]
    · have hd : decide (p.1 ≠ k) = true := by simp [hp]
      rw [hd, if_pos rfl]
      simp only [findAssoc]
      rw [findAssoc_filter_ne k k2 h rest]

/-- Lookup after an insert at a different key. -/
theorem findAssoc_insert_ne {κ α : Type} [DecidableEq κ] (k k2 : κ) (v : α)
    (l : List (κ × α)) (h : k2 ≠ k) :
    findAssoc k2 (insertAssoc k v l) = findAssoc k2 l := by
  show (if k = k2 then some v else findAssoc k2 (List.filter (fun p => decide (p.1 ≠ k)) l))
      = findAssoc k2 l
  rw [if_neg (fun e => h e.symm), findAssoc_filter_ne k k2 h l]

/-- The stack-trace side table embeds no references at all: each element
stores only strings and a line number. -/
theorem stackTraceRefs_eq_nil : ∀ es : List StackTraceElement, stackTraceRefs es = []
  | [] => rfl
  | e :: es => by simp [stackTraceRefs, StackTraceElement.references, stackTraceRefs_eq_nil es]

/-- The reference contribution of the whole side table is empty. -/
theorem throwableTableRefs_eq_nil :
    ∀ t : List (Int × List StackTraceElement), throwableTableRefs t = []
  | [] => rfl
  | p :: ps => by simp [throwableTableRefs, stackTraceRefs_eq_nil, throwableTableRefs_eq_nil ps]

/-- Every unicode scalar value is below 0xD800 or above the surrogate
range. -/
theorem char_valid_range (c : Char) :
    c.toNat < 0xD800 ∨ (0xDFFF < c.toNat ∧ c.toNat < 0x110000) := c.valid

/-- Every UTF-16 code unit produced by the encoder fits in sixteen
bits. -/
theorem encodeChar_lt (c : Char) : ∀ u ∈ encodeChar c, u < 0x10000 := by
  intro u hu
  unfold encodeChar at hu
  rcases char_valid_range c with h | h
  · rw [if_pos (by omega)] at hu
    simp at hu
    omega
  · by_cases hc : c.toNat < 0x10000
    · rw [if_pos hc] at hu
      simp at hu
      omega
    · rw [if_neg hc] at hu
      have hdiv : (c.toNat - 0x10000) / 0x400 ≤ 0x3FF := by
        have h1 : c.toNat - 0x10000 ≤ 0xFFFFF := by omega
        calc (c.toNat - 0x10000) / 0x400 ≤ 0xFFFFF / 0x400 := Nat.div_le_div_right h1
        _ = 0x3FF := by norm_num
      have hmod : (c.toNat - 0x10000) % 0x400 < 0x400 := Nat.mod_lt _ (by norm_num)
      simp at hu
      rcases hu with hu | hu <;> omega

/-- Every code unit of an encoded string fits in sixteen bits. -/
theorem encodeUtf16_lt : ∀ (cs : List Char), ∀ u ∈ encodeUtf16 cs, u < 0x10000
  | [] => by intro u hu; simp [encodeUtf16] at hu
  | c :: cs => by
    intro u hu
    simp only [encodeUtf16, List.mem_append] at hu
    rcases hu with hu | hu
    · exact encodeChar_lt c u hu
    · exact encodeUtf16_lt cs u hu

/-- Unfolding of the decoder at a non-surrogate code unit. -/
theorem decodeUtf16_bmp (u : Nat) (rest : List Nat) (h : isBmpScalar u) :
    decodeUtf16 (u :: rest) =
      match decodeUtf16 rest with
      | some cs => some (Char.ofNat u :: cs)
      | none => none := by
  match rest with
  | [] =>
    show (if isBmpScalar u then some [Char.ofNat u] else none) = _
    rw [if_pos h]
    rfl
  | v :: rest2 =>
    show (if isBmpScalar u then _ else _) = _
    rw [if_pos h]

/-- Unfolding of the decoder at a surrogate pair. -/
theorem decodeUtf16_pair (u v : Nat) (rest : List Nat) (h1 : ¬ isBmpScalar u)
    (h2 : 0xD800 ≤ u ∧ u < 0xDC00) (h3 : 0xDC00 ≤ v ∧ v < 0xE000) :
    decodeUtf16 (u :: v :: rest) =
      match decodeUtf16 rest with
      | some cs => some (Char.ofNat (combineSurrogates u v) :: cs)
      | none => none := by
  show (if isBmpScalar u then _ else _) = _
  rw [if_neg h1, if_pos ⟨h2, h3⟩]

/-- UTF-16 decoding inverts UTF-16 encoding on every list of scalar
values. -/
theorem decode_encode_utf16 : ∀ cs : List Char, decodeUtf16 (encodeUtf16 cs) = some cs := by
  intro cs
  induction cs with
  | nil => rfl
  | cons c cs ih =>
    by_cases hc : c.toNat < 0x10000
    · have henc : encodeUtf16 (c :: cs) = c.toNat :: encodeUtf16 cs := by
        simp [encodeUtf16, encodeChar, hc]
      rw [henc]
      have hbmp : isBmpScalar c.toNat := by
        rcases char_valid_range c with h | h
        · exact Or.inl h
        · exact Or.inr (by omega)
      rw [decodeUtf16_bmp _ _ hbmp, ih, Char.ofNat_toNat]
    · have hval : 0xDFFF < c.toNat ∧ c.toNat < 0x110000 := by
        rcases char_valid_range c with h | h
        · omega
        · exact h
      have henc : encodeUtf16 (c :: cs) =
          (0xD800 + (c.toNat - 0x10000) / 0x400) ::
            (0xDC00 + (c.toNat - 0x10000) % 0x400) :: encodeUtf16 cs := by
        simp [encodeUtf16, encodeChar, hc]
      have hdiv : (c.toNat - 0x10000) / 0x400 ≤ 0x3FF := by
        have h1 : c.toNat - 0x10000 ≤ 0xFFFFF := by omega
        calc (c.toNat - 0x10000) / 0x400 ≤ 0xFFFFF / 0x400 := Nat.div_le_div_right h1
        _ = 0x3FF := by norm_num
      have hmod : (c.toNat - 0x10000) % 0x400 < 0x400 := Nat.mod_lt _ (by norm_num)
      rw [henc]
      have hnb : ¬ isBmpScalar (0xD800 + (c.toNat - 0x10000) / 0x400) := by
        simp only [isBmpScalar]
        omega
      have hhi : 0xD800 ≤ 0xD800 + (c.toNat - 0x10000) / 0x400 ∧
          0xD800 + (c.toNat - 0x10000) / 0x400 < 0xDC00 := by omega
      have hlo : 0xDC00 ≤ 0xDC00 + (c.toNat - 0x10000) % 0x400 ∧
          0xDC00 + (c.toNat - 0x10000) % 0x400 < 0xE000 := by omega
      rw [decodeUtf16_pair _ _ _ hnb hhi hlo, ih]
      have hcomb : combineSurrogates (0xD800 + (c.toNat - 0x10000) / 0x400)
          (0xDC00 + (c.toNat - 0x10000) % 0x400) = c.toNat := by
        unfold combineSurrogates
        omega
      rw [hcomb, Char.ofNat_toNat]

/-- Rebuilding a string from its scalar values gives the string back. -/
theorem stringMk_data (s : String) : String.mk s.data = s := by
  cases s
  rfl

/-- A small int value is read back as its code unit. -/
theorem codeUnitOfValue_int (u : Nat) (hu : u < 0x10000) :
    codeUnitOfValue (Value.int (Int.ofNat u)) = some u := by
  show (if 0 ≤ Int.ofNat u ∧ Int.ofNat u < 0x10000 then some (Int.ofNat u).toNat else none)
      = some u
  rw [if_pos ⟨Int.ofNat_nonneg u, Int.ofNat_lt.mpr hu⟩]
  simp

/-- Unfolding of the code-unit collection at a unit-holding slot. -/
theorem collectCodeUnits_cons (v : Value) (vs : List Value) (u : Nat)
    (h1 : codeUnitOfValue v = some u) :
    collectCodeUnits (v :: vs) =
      match collectCodeUnits vs with
      | some us => some (u :: us)
      | none => none := by
  show (match codeUnitOfValue v with
    | some u =>
      match collectCodeUnits vs with
      | some us => some (u :: us)
      | none => none
    | none => none) = _
  rw [h1]

/-- Code units wrapped as int values are read back unchanged. -/
theorem collectCodeUnits_map_int :
    ∀ us : List Nat, (∀ u ∈ us, u < 0x10000) →
      collectCodeUnits (us.map (fun u => Value.int (Int.ofNat u))) = some us := by
  intro us
  induction us with
  | nil => intro _; rfl
  | cons u us ih =>
    intro h
    have hu : u < 0x10000 := h u (by simp)
    rw [List.map_cons, collectCodeUnits_cons _ _ u (codeUnitOfValue_int u hu),
      ih (fun v hv => h v (by simp [hv]))]

/-- C1: when a garbage collection runs, the set of roots the collector
traces from comprises every static-instance reference held in the
statics map, every object reference held in any frame's operand stack
and locals in any allocated call stack, and every reference embedded in
the throwable-stack-trace side table (the side table embeds no
references, since a stack-trace element stores only strings and a line
number, so its contribution is empty). -/
theorem gc_roots_comprise_statics_stacks_and_throwable_table (vm : Vm) (r : Nat) :
    r ∈ vm.gcRoots ↔
      r ∈ staticsRefs vm.statics ∨ r ∈ stacksRoots vm.callStacks
        ∨ r ∈ throwableTableRefs vm.throwableCallStacks := by
  show r ∈ staticsRefs vm.statics ++ stacksRoots vm.callStacks ↔ _
  rw [throwableTableRefs_eq_nil]
  simp [List.mem_append]

/-- C2 (amended): for both allocation entry points, a successful first
attempt returns directly; a failed first attempt triggers a garbage
collection and a retry; and when the retry also fails the process is
aborted by a panic, with no internal-error variant returned to the
embedder. -/
theorem allocation_retries_after_gc_then_aborts (vm : Vm) (c : Class)
    (et : ArrayEntryType) (len : Nat) :
    (∀ h r, vm.heap.allocate c = some (h, r) →
       vm.newObjectOfClass c = .ok ({ vm with heap := h }, r))
    ∧ (vm.heap.allocate c = none → ∀ h r,
         vm.doGarbageCollection.heap.allocate c = some (h, r) →
         vm.newObjectOfClass c = .ok ({ vm.doGarbageCollection with heap := h }, r))
    ∧ (vm.heap.allocate c = none → vm.doGarbageCollection.heap.allocate c = none →
         vm.newObjectOfClass c = .aborted)
    ∧ (∀ h r, vm.heap.allocateArray et len = some (h, r) →
         vm.newArray et len = .ok ({ vm with heap := h }, r))
    ∧ (vm.heap.allocateArray et len = none → ∀ h r,
         vm.doGarbageCollection.heap.allocateArray et len = some (h, r) →
         vm.newArray et len = .ok ({ vm.doGarbageCollection with heap := h }, r))
    ∧ (vm.heap.allocateArray et len = none →
         vm.doGarbageCollection.heap.allocateArray et len = none →
         vm.newArray et len = .aborted) := by
  refine ⟨?_, ?_, ?_, ?_, ?_, ?_⟩
  · intro h r hs
    unfold Vm.newObjectOfClass
    simp only [hs]
  · intro hf h r hs
    unfold Vm.newObjectOfClass
    simp only [hf, hs]
  · intro hf1 hf2
    unfold Vm.newObjectOfClass
    simp only [hf1, hf2]
  · intro h r hs
    unfold Vm.newArray
    simp only [hs]
  · intro hf h r hs
    unfold Vm.newArray
    simp only [hf, hs]
  · intro hf1 hf2
    unfold Vm.newArray
    simp only [hf1, hf2]

/-- C2 counterexample: on a vm whose heap has no capacity, both
allocation entry points abort the process after the failed retry (a
Rust panic through expect); no distinguished internal-error variant is
returned to the embedder. -/
theorem allocation_failure_after_gc_aborts_process :
    vmTiny.newObjectOfClass clsPlain = .aborted
    ∧ vmTiny.newArray (.base .char) 1 = .aborted :=
  ⟨rfl, rfl⟩

/-- C2 witness: a concrete run of the amended theorem on the
no-capacity vm. -/
theorem allocation_retries_after_gc_then_aborts_witness :
    vmTiny.heap.allocate clsPlain = none
    ∧ vmTiny.doGarbageCollection.heap.allocate clsPlain = none
    ∧ vmTiny.newObjectOfClass clsPlain = .aborted :=
  ⟨rfl, rfl,
   (allocation_retries_after_gc_then_aborts vmTiny clsPlain (.base .char) 1).2.2.1 rfl rfl⟩

/-- C6: invoking a method marked native dispatches through the
registry: when the (class name, method name, descriptor) triple is
absent the result is the internal error NotImplemented; when it is
present the registered host callback is executed on the receiver and
arguments and its result is returned. -/
theorem invoke_native_registry (reg : NativeRegistry) (ex : ExecOracle) (vm : Vm)
    (stack : CallStack) (cm : ClassAndMethod) (receiver : Option Nat)
    (args : List Value) (hnative : cm.method.isNative = true) :
    (reg.getMethod cm = none →
       invoke reg ex vm stack cm receiver args
         = .ok (vm, stack, .error (.internalError .notImplemented)))
    ∧ (∀ cb, reg.getMethod cm = some cb →
       invoke reg ex vm stack cm receiver args = cb vm stack receiver args) := by
  have hinv : invoke reg ex vm stack cm receiver args
      = invokeNative reg vm stack cm receiver args := by
    unfold invoke
    rw [hnative]
    simp
  constructor
  · intro h
    rw [hinv]
    unfold invokeNative
    simp only [h]
  · intro cb h
    rw [hinv]
    unfold invokeNative
    simp only [h]

/-- C6 witness: a concrete native method absent from an empty registry
and present in a one-entry registry. -/
theorem invoke_native_registry_witness :
    natCm.method.isNative = true
    ∧ invoke [] execNop vmEmpty stackEmpty natCm none []
        = .ok (vmEmpty, stackEmpty, .error (.internalError .notImplemented))
    ∧ invoke regNat execNop vmEmpty stackEmpty natCm none []
        = cbNop vmEmpty stackEmpty none [] :=
  ⟨rfl,
   (invoke_native_registry [] execNop vmEmpty stackEmpty natCm none [] rfl).1 rfl,
   (invoke_native_registry regNat execNop vmEmpty stackEmpty natCm none [] rfl).2 cbNop rfl⟩

/-- C9: after associating a stack trace with a throwable, looking the
same throwable up returns that stack trace; the table is keyed by the
identity hash, so a throwable with the same identity hash reads the
same entry, and a second association through it overwrites the first. -/
theorem throwable_stack_trace_table (vm : Vm) (t1 t2 : Nat)
    (cs1 cs2 : List StackTraceElement)
    (hhash : vm.identityHashCode t1 = vm.identityHashCode t2) :
    (∀ t cs, (vm.associateStackTraceWithThrowable t cs).getStackTraceAssociatedWithThrowable t
        = some cs)
    ∧ (vm.associateStackTraceWithThrowable t1 cs1).getStackTraceAssociatedWithThrowable t2
        = some cs1
    ∧ ((vm.associateStackTraceWithThrowable t1 cs1).associateStackTraceWithThrowable t2
          cs2).getStackTraceAssociatedWithThrowable t1
        = some cs2 := by
  refine ⟨?_, ?_, ?_⟩
  · intro t cs
    show findAssoc (vm.identityHashCode t)
        (insertAssoc (vm.identityHashCode t) cs vm.throwableCallStacks) = some cs
    exact findAssoc_insert_self _ _ _
  · show findAssoc (vm.identityHashCode t2)
        (insertAssoc (vm.identityHashCode t1) cs1 vm.throwableCallStacks) = some cs1
    rw [← hhash]
    exact findAssoc_insert_self _ _ _
  · show findAssoc (vm.identityHashCode t1)
        (insertAssoc (vm.identityHashCode t2) cs2
          (insertAssoc (vm.identityHashCode t1) cs1 vm.throwableCallStacks)) = some cs2
    rw [hhash]
    exact findAssoc_insert_self _ _ _

/-- C9 witness: two distinct objects with the same identity hash share
and overwrite one table entry. -/
theorem throwable_stack_trace_table_witness :
    vmTwo.identityHashCode 0 = vmTwo.identityHashCode 1
    ∧ (vmTwo.associateStackTraceWithThrowable 0 [steA]).getStackTraceAssociatedWithThrowable 1
        = some [steA]
    ∧ ((vmTwo.associateStackTraceWithThrowable 0 [steA]).associateStackTraceWithThrowable 1
          [steB]).getStackTraceAssociatedWithThrowable 0
        = some [steB] :=
  ⟨rfl,
   (throwable_stack_trace_table vmTwo 0 1 [steA] [steB] rfl).2.1,
   (throwable_stack_trace_table vmTwo 0 1 [steA] [steB] rfl).2.2⟩

/-- Unfolding of a successful instance allocation into its components. -/
theorem allocate_shape (h0 h1 : Heap) (c : Class) (r : Nat)
    (ha : h0.allocate c = some (h1, r)) :
    r = h0.objects.length
    ∧ h1.objects = h0.objects ++
        [⟨Int.ofNat h0.objects.length,
          .instanceOf c.id (c.fieldKinds.map FieldKind.defaultValue)⟩]
    ∧ h1.used = h0.used + allocationSize c.fieldKinds.length
    ∧ h1.maxMemory = h0.maxMemory := by
  unfold Heap.allocate at ha
  by_cases hc : h0.used + allocationSize c.fieldKinds.length ≤ h0.maxMemory
  · rw [if_pos hc] at ha
    injection ha with ha2
    injection ha2 with e1 e2
    subst e1
    subst e2
    exact ⟨rfl, rfl, rfl, rfl⟩
  · rw [if_neg hc] at ha
    exact Option.noConfusion ha

/-- Unfolding of a successful array allocation into its components. -/
theorem allocateArray_shape (h0 h1 : Heap) (et : ArrayEntryType) (len r : Nat)
    (ha : h0.allocateArray et len = some (h1, r)) :
    r = h0.objects.length
    ∧ h1.objects = h0.objects ++
        [⟨Int.ofNat h0.objects.length, .arrayOf et (List.replicate len et.defaultValue)⟩]
    ∧ h1.used = h0.used + allocationSize len
    ∧ h1.maxMemory = h0.maxMemory := by
  unfold Heap.allocateArray at ha
  by_cases hc : h0.used + allocationSize len ≤ h0.maxMemory
  · rw [if_pos hc] at ha
    injection ha with ha2
    injection ha2 with e1 e2
    subst e1
    subst e2
    exact ⟨rfl, rfl, rfl, rfl⟩
  · rw [if_neg hc] at ha
    exact Option.noConfusion ha

/-- A successful Vm::new_object_of_class leaves the fresh zero-filled
instance of the class at the returned reference, whether or not a
collection ran in between. -/
theorem newObjectOfClass_fresh (vm : Vm) (c : Class) (vm1 : Vm) (r : Nat)
    (h : vm.newObjectOfClass c = .ok (vm1, r)) :
    vm1.heap.objects.get? r
      = some ⟨Int.ofNat r, .instanceOf c.id (c.fieldKinds.map FieldKind.defaultValue)⟩ := by
  unfold Vm.newObjectOfClass at h
  cases hno : vm.heap.allocate c with
  | some p =>
    obtain ⟨hp, rp⟩ := p
    rw [hno] at h
    injection h with h2
    injection h2 with e1 e2
    obtain ⟨re, oe, -, -⟩ := allocate_shape vm.heap hp c rp hno
    subst e1
    subst e2
    show hp.objects.get? rp = _
    rw [oe, re]
    exact listGet_append_length _ _
  | none =>
    rw [hno] at h
    cases hno2 : (vm.doGarbageCollection).heap.allocate c with
    | some p =>
      obtain ⟨hp, rp⟩ := p
      rw [hno2] at h
      injection h with h2
      injection h2 with e1 e2
      obtain ⟨re, oe, -, -⟩ := allocate_shape _ hp c rp hno2
      subst e1
      subst e2
      show hp.objects.get? rp = _
      rw [oe, re]
      exact listGet_append_length _ _
    | none =>
      rw [hno2] at h
      exact StepResult.noConfusion h

/-- Unfolding of Vm::invoke on a non-native method. -/
theorem invoke_nonnative_steps (reg : NativeRegistry) (ex : ExecOracle)
    (vm : Vm) (stack : CallStack) (cm : ClassAndMethod) (receiver : Option Nat)
    (args : List Value) (hnn : cm.method.isNative = false) :
    invoke reg ex vm stack cm receiver args =
      match stack.addFrame cm receiver args with
      | .error e => .ok (vm, stack, .error (.internalError e))
      | .ok stack1 =>
        match ex vm stack1 with
        | .aborted => .aborted
        | .ok (vm2, stack2, result) =>
          match stack2.popFrame with
          | none => .aborted
          | some stack3 => .ok (vm2, stack3, result) := by
  unfold invoke
  rw [hnn]
  simp

/-- C7: for a non-native invocation whose frame push succeeds, invoke
pops exactly the pushed frame before returning, whatever the execution
result, so the frame count after invoke equals the frame count before
(the interpreter itself is balanced: it leaves the stack depth it found,
the hypothesis hbal). -/
theorem invoke_pops_pushed_frame (reg : NativeRegistry) (ex : ExecOracle)
    (vm vm2 : Vm) (stack stack1 stack2 : CallStack) (cm : ClassAndMethod)
    (receiver : Option Nat) (args : List Value) (result : MethodCallResult)
    (hnn : cm.method.isNative = false)
    (hpush : stack.addFrame cm receiver args = .ok stack1)
    (hexec : ex vm stack1 = .ok (vm2, stack2, result))
    (hbal : stack2.frames.length = stack1.frames.length) :
    ∃ stack3, invoke reg ex vm stack cm receiver args = .ok (vm2, stack3, result)
      ∧ stack3.frames.length = stack.frames.length := by
  have hlen : stack1.frames.length = stack.frames.length + 1 := by
    unfold CallStack.addFrame at hpush
    by_cases hd : stack.frames.length < maxCallStackDepth
    · rw [if_pos hd] at hpush
      injection hpush with e1
      rw [← e1]
      simp
    · rw [if_neg hd] at hpush
      exact Except.noConfusion hpush
  cases h2 : stack2.frames with
  | nil =>
    rw [h2] at hbal
    simp at hbal
    omega
  | cons f2 rest2 =>
    have hpop : stack2.popFrame = some ⟨rest2⟩ := by
      unfold CallStack.popFrame
      rw [h2]
    refine ⟨⟨rest2⟩, ?_, ?_⟩
    · rw [invoke_nonnative_steps reg ex vm stack cm receiver args hnn, hpush]
      show (match ex vm stack1 with
        | StepResult.aborted => StepResult.aborted
        | StepResult.ok (vm2, stack2, result) =>
          match stack2.popFrame with
          | none => StepResult.aborted
          | some stack3 => StepResult.ok (vm2, stack3, result)) = _
      rw [hexec]
      show (match stack2.popFrame with
        | none => StepResult.aborted
        | some stack3 => StepResult.ok (vm2, stack3, result)) = _
      rw [hpop]
    · have hr2 : rest2.length + 1 = stack2.frames.length := by
        rw [h2]
        simp
      show rest2.length = stack.frames.length
      omega

/-- Unfolding of Vm::init_class after a successful static-instance
allocation. -/
theorem initClass_steps (reg : NativeRegistry) (ex : ExecOracle) (vm : Vm)
    (stack : CallStack) (c : Class) (vm1 : Vm) (r : Nat)
    (hno : vm.newObjectOfClass c = .ok (vm1, r)) :
    initClass reg ex vm stack c =
      match c.findMethod "<clinit>" "()V" with
      | none =>
        .ok ⟨{ vm1 with statics := insertAssoc c.id r vm1.statics }, stack, [], .ok ()⟩
      | some m =>
        match invoke reg ex { vm1 with statics := insertAssoc c.id r vm1.statics } stack
            ⟨c, m⟩ none [] with
        | .aborted => .aborted
        | .ok (vm3, stack3, result) =>
          .ok ⟨vm3, stack3, [c.name], result.map (fun _ => ())⟩ := by
  unfold initClass
  rw [hno]

/-- A balanced non-native invocation cannot drop an existing statics
entry when the interpreter oracle preserves statics entries. -/
theorem invoke_preserves_statics_entry (reg : NativeRegistry) (ex : ExecOracle)
    (vm : Vm) (stack : CallStack) (cm : ClassAndMethod) (receiver : Option Nat)
    (args : List Value) (vmB : Vm) (stackB : CallStack) (res : MethodCallResult)
    (id : Nat) (rr : Nat)
    (hmn : cm.method.isNative = false)
    (hpres : ∀ vmA stA out, ex vmA stA = .ok out →
       ∀ id2 r2, findAssoc id2 vmA.statics = some r2 →
         (findAssoc id2 out.1.statics).isSome = true)
    (hinv : invoke reg ex vm stack cm receiver args = .ok (vmB, stackB, res))
    (hentry : findAssoc id vm.statics = some rr) :
    (findAssoc id vmB.statics).isSome = true := by
  rw [invoke_nonnative_steps reg ex vm stack cm receiver args hmn] at hinv
  cases hadd : stack.addFrame cm receiver args with
  | error e0 =>
    rw [hadd] at hinv
    injection hinv with e
    injection e with e1 e2
    rw [← e1, hentry]
    rfl
  | ok stack1 =>
    rw [hadd] at hinv
    have hinv2 : (match ex vm stack1 with
      | StepResult.aborted => StepResult.aborted
      | StepResult.ok (vm2, stack2, result) =>
        match stack2.popFrame with
        | none => StepResult.aborted
        | some stack3 => StepResult.ok (vm2, stack3, result))
        = StepResult.ok (vmB, stackB, res) := hinv
    cases hex : ex vm stack1 with
    | aborted =>
      rw [hex] at hinv2
      exact StepResult.noConfusion hinv2
    | ok out =>
      obtain ⟨vmX, stackX, resX⟩ := out
      rw [hex] at hinv2
      have hsome := hpres vm stack1 (vmX, stackX, resX) hex id rr hentry
      have hinv3 : (match stackX.popFrame with
        | none => StepResult.aborted
        | some stack3 => StepResult.ok (vmX, stack3, resX))
          = StepResult.ok (vmB, stackB, res) := hinv2
      cases hpop : stackX.popFrame with
      | none =>
        rw [hpop] at hinv3
        exact StepResult.noConfusion hinv3
      | some st3 =>
        rw [hpop] at hinv3
        injection hinv3 with e
        injection e with e1 e2
        rw [← e1]
        exact hsome

/-- C8: the static instance of a class is created at initialization
time and stored under the class id, so that get_static_instance then
returns it (a fresh zero-filled instance of the class); a class
initializer run through a statics-preserving interpreter keeps the
entry present; a fresh vm has no static instance for any id; and
resolving an already-loaded class changes nothing, so no second
instance is ever created for it. -/
theorem static_instance_singleton (reg : NativeRegistry) (ex : ExecOracle)
    (resolve : ResolveOracle) (vm : Vm) (stack : CallStack) (c : Class) :
    (∀ o, c.findMethod "<clinit>" "()V" = none →
       initClass reg ex vm stack c = .ok o →
       ∃ r, o.vm.getStaticInstance c.id = some r
         ∧ o.vm.heap.objects.get? r
             = some ⟨Int.ofNat r, .instanceOf c.id (c.fieldKinds.map FieldKind.defaultValue)⟩)
    ∧ (∀ m o, c.findMethod "<clinit>" "()V" = some m → m.isNative = false →
       (∀ vmA stA out, ex vmA stA = .ok out →
          ∀ id2 r2, findAssoc id2 vmA.statics = some r2 →
            (findAssoc id2 out.1.statics).isSome = true) →
       initClass reg ex vm stack c = .ok o →
       (o.vm.getStaticInstance c.id).isSome = true)
    ∧ (∀ maxMem id, (Vm.new maxMem).getStaticInstance id = none)
    ∧ (∀ name c2, resolve name = .ok (.alreadyLoaded c2) →
       getOrResolveClass reg ex resolve vm stack name = .ok (vm, stack, [], .ok c2)) := by
  refine ⟨?_, ?_, ?_, ?_⟩
  · intro o hnone hinit
    cases hno : vm.newObjectOfClass c with
    | aborted =>
      unfold initClass at hinit
      rw [hno] at hinit
      exact StepResult.noConfusion hinit
    | ok p =>
      obtain ⟨vm1, r⟩ := p
      rw [initClass_steps reg ex vm stack c vm1 r hno, hnone] at hinit
      injection hinit with e
      refine ⟨r, ?_, ?_⟩
      · rw [← e]
        exact findAssoc_insert_self _ _ _
      · rw [← e]
        exact newObjectOfClass_fresh vm c vm1 r hno
  · intro m o hm hmn hpres hinit
    cases hno : vm.newObjectOfClass c with
    | aborted =>
      unfold initClass at hinit
      rw [hno] at hinit
      exact StepResult.noConfusion hinit
    | ok p =>
      obtain ⟨vm1, r⟩ := p
      rw [initClass_steps reg ex vm stack c vm1 r hno, hm] at hinit
      have hinit2 : (match invoke reg ex
            { vm1 with statics := insertAssoc c.id r vm1.statics } stack ⟨c, m⟩ none [] with
        | StepResult.aborted => StepResult.aborted
        | StepResult.ok (vm3, stack3, result) =>
          StepResult.ok ⟨vm3, stack3, [c.name], result.map (fun _ => ())⟩)
          = StepResult.ok o := hinit
      cases hinv : invoke reg ex { vm1 with statics := insertAssoc c.id r vm1.statics } stack
          ⟨c, m⟩ none [] with
      | aborted =>
        rw [hinv] at hinit2
        exact StepResult.noConfusion hinit2
      | ok out =>
        obtain ⟨vmB, stackB, res⟩ := out
        rw [hinv] at hinit2
        injection hinit2 with e
        have hkeep := invoke_preserves_statics_entry reg ex
          { vm1 with statics := insertAssoc c.id r vm1.statics } stack ⟨c, m⟩ none []
          vmB stackB res c.id r hmn hpres hinv (findAssoc_insert_self c.id r vm1.statics)
        rw [← e]
        exact hkeep
  · intro maxMem id
    rfl
  · intro name c2 hres
    unfold getOrResolveClass
    rw [hres]

/-- C8 witness: initializing a concrete class without a class
initializer on a fresh vm stores a retrievable static instance; the
fresh vm itself answers none. -/
theorem static_instance_singleton_witness :
    clsPlain.findMethod "<clinit>" "()V" = none
    ∧ (Vm.new 64).getStaticInstance 4 = none
    ∧ ∃ o, initClass [] execNop vmEmpty stackEmpty clsPlain = .ok o
        ∧ ∃ r, o.vm.getStaticInstance clsPlain.id = some r
          ∧ o.vm.heap.objects.get? r
              = some ⟨Int.ofNat r,
                  .instanceOf clsPlain.id (clsPlain.fieldKinds.map FieldKind.defaultValue)⟩ := by
  refine ⟨rfl, ?_, ⟨_, rfl, ?_⟩⟩
  · exact (static_instance_singleton [] execNop (fun _ => .error .validationException)
      vmEmpty stackEmpty clsPlain).2.2.1 64 4
  · exact (static_instance_singleton [] execNop (fun _ => .error .validationException)
      vmEmpty stackEmpty clsPlain).1 _ rfl rfl

/-- A successful Vm::init_class invokes the class initializer exactly
when the class declares one, recording the class name in the trace. -/
theorem initClass_ok_invoked (reg : NativeRegistry) (ex : ExecOracle) (vm : Vm)
    (stack : CallStack) (c : Class) (o : InitOutcome)
    (h : initClass reg ex vm stack c = .ok o) :
    o.invoked = if (c.findMethod "<clinit>" "()V").isSome then [c.name] else [] := by
  cases hno : vm.newObjectOfClass c with
  | aborted =>
    unfold initClass at h
    rw [hno] at h
    exact StepResult.noConfusion h
  | ok p =>
    obtain ⟨vm1, r⟩ := p
    rw [initClass_steps reg ex vm stack c vm1 r hno] at h
    cases hm : c.findMethod "<clinit>" "()V" with
    | none =>
      rw [hm] at h
      injection h with e
      rw [← e]
      rfl
    | some m =>
      rw [hm] at h
      have h2 : (match invoke reg ex
            { vm1 with statics := insertAssoc c.id r vm1.statics } stack ⟨c, m⟩ none [] with
        | StepResult.aborted => StepResult.aborted
        | StepResult.ok (vm3, stack3, result) =>
          StepResult.ok ⟨vm3, stack3, [c.name], result.map (fun _ => ())⟩)
          = StepResult.ok o := h
      cases hinv : invoke reg ex { vm1 with statics := insertAssoc c.id r vm1.statics } stack
          ⟨c, m⟩ none [] with
      | aborted =>
        rw [hinv] at h2
        exact StepResult.noConfusion h2
      | ok out =>
        obtain ⟨vmB, stackB, res⟩ := out
        rw [hinv] at h2
        injection h2 with e
        rw [← e]
        rfl

/-- A successful initialization loop invokes exactly the class
initializers of the pending classes that declare one, in list order. -/
theorem initClasses_ok_trace (reg : NativeRegistry) (ex : ExecOracle) :
    ∀ (cs : List Class) (vm : Vm) (stack : CallStack) (o : InitOutcome),
      initClasses reg ex vm stack cs = .ok o → o.result = .ok () →
      o.invoked = clinitNames cs := by
  intro cs
  induction cs with
  | nil =>
    intro vm stack o h hres
    injection h with e
    rw [← e]
    rfl
  | cons c rest ih =>
    intro vm stack o h hres
    have h2 : (match initClass reg ex vm stack c with
      | StepResult.aborted => StepResult.aborted
      | StepResult.ok o1 =>
        match o1.result with
        | .error f => StepResult.ok o1
        | .ok () =>
          match initClasses reg ex o1.vm o1.stack rest with
          | StepResult.aborted => StepResult.aborted
          | StepResult.ok o2 =>
            StepResult.ok ⟨o2.vm, o2.stack, o1.invoked ++ o2.invoked, o2.result⟩)
        = StepResult.ok o := h
    cases hic : initClass reg ex vm stack c with
    | aborted =>
      rw [hic] at h2
      exact StepResult.noConfusion h2
    | ok o1 =>
      rw [hic] at h2
      have h3 : (match o1.result with
        | Except.error f => StepResult.ok o1
        | Except.ok () =>
          match initClasses reg ex o1.vm o1.stack rest with
          | StepResult.aborted => StepResult.aborted
          | StepResult.ok o2 =>
            StepResult.ok ⟨o2.vm, o2.stack, o1.invoked ++ o2.invoked, o2.result⟩)
          = StepResult.ok o := h2
      cases hr1 : o1.result with
      | error f =>
        rw [hr1] at h3
        injection h3 with e
        rw [← e] at hres
        rw [hr1] at hres
        exact Except.noConfusion hres
      | ok u =>
        cases u
        rw [hr1] at h3
        cases hrest : initClasses reg ex o1.vm o1.stack rest with
        | aborted =>
          rw [hrest] at h3
          exact StepResult.noConfusion h3
        | ok o2 =>
          rw [hrest] at h3
          injection h3 with e
          have hinv1 := initClass_ok_invoked reg ex vm stack c o1 hic
          have ho2res : o2.result = .ok () := by
            rw [← e] at hres
            exact hres
          have ih2 := ih o1.vm o1.stack o2 hrest ho2res
          rw [← e]
          show o1.invoked ++ o2.invoked = clinitNames (c :: rest)
          rw [hinv1, ih2]
          unfold clinitNames
          rw [List.filter_cons]
          by_cases hcm : (c.findMethod "<clinit>" "()V").isSome = true
          · rw [if_pos hcm, if_pos hcm]
            simp [clinitNames]
          · rw [if_neg hcm, if_neg hcm]
            simp [clinitNames]

/-- C3: when resolution succeeds and loads new classes, the pending
classes are initialized before get_or_resolve_class returns: on overall
success the invoked class initializers are exactly those of the pending
classes that declare one, in pending-list order, and the resolved class
is returned; when any class initializer fails, get_or_resolve_class
returns that failure. -/
theorem get_or_resolve_runs_clinits_in_order (reg : NativeRegistry)
    (ex : ExecOracle) (resolve : ResolveOracle) (vm : Vm) (stack : CallStack)
    (name : String) (c : Class) (toInit : List Class)
    (hres : resolve name = .ok (.newClass c toInit)) :
    ∀ o, initClasses reg ex vm stack toInit = .ok o →
      (o.result = .ok () →
         getOrResolveClass reg ex resolve vm stack name
           = .ok (o.vm, o.stack, o.invoked, .ok c)
         ∧ o.invoked = clinitNames toInit)
      ∧ (∀ f, o.result = .error f →
         getOrResolveClass reg ex resolve vm stack name
           = .ok (o.vm, o.stack, o.invoked, .error f)) := by
  intro o hinit
  have hg : getOrResolveClass reg ex resolve vm stack name
      = .ok (o.vm, o.stack, o.invoked, o.result.map (fun _ => c)) := by
    unfold getOrResolveClass
    rw [hres]
    show (match initClasses reg ex vm stack toInit with
      | StepResult.aborted => StepResult.aborted
      | StepResult.ok o =>
        StepResult.ok (o.vm, o.stack, o.invoked, o.result.map (fun _ => c))) = _
    rw [hinit]
  constructor
  · intro hok
    constructor
    · rw [hg, hok]
      rfl
    · exact initClasses_ok_trace reg ex toInit vm stack o hinit hok
  · intro f hf
    rw [hg, hf]
    rfl

/-- C3 witness: resolving a concrete class name loads A then B, both
with class initializers, which are invoked in that order before the
resolution returns. -/
theorem get_or_resolve_runs_clinits_in_order_witness :
    resolveW "LoadMe" = .ok (.newClass clsLoaded [clsA, clsB])
    ∧ ∃ o, initClasses [] execNop vmEmpty stackEmpty [clsA, clsB] = .ok o
        ∧ o.invoked = ["A", "B"]
        ∧ getOrResolveClass [] execNop resolveW vmEmpty stackEmpty "LoadMe"
            = .ok (o.vm, o.stack, o.invoked, .ok clsLoaded) := by
  have h := get_or_resolve_runs_clinits_in_order [] execNop resolveW vmEmpty stackEmpty
    "LoadMe" clsLoaded [clsA, clsB] rfl _ rfl
  exact ⟨rfl, _, rfl, rfl, (h.1 rfl).1⟩

/-- C5: extract_str_from_java_lang_string fails with ValidationException
on every object whose class is not java/lang/String, and every success
comes from an object of class java/lang/String whose field slot 0 holds
a char array that decodes to the result. -/
theorem extract_str_requires_string_class (classById : Nat → Option Class)
    (vm : Vm) (r : Nat) :
    (∀ hash cid fields cls, vm.heap.objects.get? r = some ⟨hash, .instanceOf cid fields⟩ →
       classById cid = some cls → cls.name ≠ "java/lang/String" →
       extractStrFromJavaLangString classById vm r = .error .validationException)
    ∧ (∀ s, extractStrFromJavaLangString classById vm r = .ok s →
        ∃ hash cid fields cls arr,
          vm.heap.objects.get? r = some ⟨hash, .instanceOf cid fields⟩
          ∧ classById cid = some cls
          ∧ cls.name = "java/lang/String"
          ∧ fields.get? 0 = some (.object arr)
          ∧ stringFromCharArray vm.heap arr = .ok s) := by
  constructor
  · intro hash cid fields cls hobj hcls hname
    have h1 : extractStrFromJavaLangString classById vm r
        = (match classById cid with
          | none => Except.error VmError.validationException
          | some cls =>
            if cls.name = "java/lang/String" then
              match fields.get? 0 with
              | some (Value.object arr) => stringFromCharArray vm.heap arr
              | _ => Except.error VmError.validationException
            else Except.error VmError.validationException) := by
      unfold extractStrFromJavaLangString
      rw [hobj]
    have h2 : extractStrFromJavaLangString classById vm r
        = (if cls.name = "java/lang/String" then
            match fields.get? 0 with
            | some (Value.object arr) => stringFromCharArray vm.heap arr
            | _ => Except.error VmError.validationException
          else Except.error VmError.validationException) := by
      rw [h1, hcls]
    rw [h2, if_neg hname]
  · intro s hs
    cases hobj : vm.heap.objects.get? r with
    | none =>
      have he : extractStrFromJavaLangString classById vm r
          = .error .validationException := by
        unfold extractStrFromJavaLangString
        rw [hobj]
      rw [he] at hs
      exact Except.noConfusion hs
    | some obj =>
      obtain ⟨hash, data⟩ := obj
      cases data with
      | arrayOf et es =>
        have he : extractStrFromJavaLangString classById vm r
            = .error .validationException := by
          unfold extractStrFromJavaLangString
          rw [hobj]
        rw [he] at hs
        exact Except.noConfusion hs
      | instanceOf cid fields =>
        have h1 : extractStrFromJavaLangString classById vm r
            = (match classById cid with
              | none => Except.error VmError.validationException
              | some cls =>
                if cls.name = "java/lang/String" then
                  match fields.get? 0 with
                  | some (Value.object arr) => stringFromCharArray vm.heap arr
                  | _ => Except.error VmError.validationException
                else Except.error VmError.validationException) := by
          unfold extractStrFromJavaLangString
          rw [hobj]
        cases hcls : classById cid with
        | none =>
          rw [h1, hcls] at hs
          exact Except.noConfusion hs
        | some cls =>
          have h2 : extractStrFromJavaLangString classById vm r
              = (if cls.name = "java/lang/String" then
                  match fields.get? 0 with
                  | some (Value.object arr) => stringFromCharArray vm.heap arr
                  | _ => Except.error VmError.validationException
                else Except.error VmError.validationException) := by
            rw [h1, hcls]
          by_cases hn : cls.name = "java/lang/String"
          · have h3 : extractStrFromJavaLangString classById vm r
                = (match fields.get? 0 with
                  | some (Value.object arr) => stringFromCharArray vm.heap arr
                  | _ => Except.error VmError.validationException) := by
              rw [h2, if_pos hn]
            cases hf0 : fields.get? 0 with
            | none =>
              rw [h3, hf0] at hs
              exact Except.noConfusion hs
            | some v =>
              cases v with
              | object arr =>
                have h4 : extractStrFromJavaLangString classById vm r
                    = stringFromCharArray vm.heap arr := by
                  rw [h3, hf0]
                exact ⟨hash, cid, fields, cls, arr, rfl, hcls, hn, hf0, h4.symm.trans hs⟩
              | int i =>
                rw [h3, hf0] at hs
                exact Except.noConfusion hs
              | long l =>
                rw [h3, hf0] at hs
                exact Except.noConfusion hs
              | float fb =>
                rw [h3, hf0] at hs
                exact Except.noConfusion hs
              | double db =>
                rw [h3, hf0] at hs
                exact Except.noConfusion hs
              | null =>
                rw [h3, hf0] at hs
                exact Except.noConfusion hs
              | returnAddress pc =>
                rw [h3, hf0] at hs
                exact Except.noConfusion hs
          · rw [h2, if_neg hn] at hs
            exact Except.noConfusion hs

/-- C5 witness: extraction from an instance of a class that is not
java/lang/String fails with ValidationException. -/
theorem extract_str_requires_string_class_witness :
    vmStr.heap.objects.get? 2 = some ⟨2, .instanceOf 4 []⟩
    ∧ classByIdW 4 = some clsPlain
    ∧ clsPlain.name ≠ "java/lang/String"
    ∧ extractStrFromJavaLangString classByIdW vmStr 2 = .error .validationException :=
  ⟨rfl, rfl, by decide,
   (extract_str_requires_string_class classByIdW vmStr 2).1 2 4 [] clsPlain rfl rfl
     (by decide)⟩

/-- C10: clone_array on a value holding an array (when the fresh array
fits without a collection) returns a freshly allocated array with the
same element type, length and element-wise contents, leaving the
original unchanged; on every non-array value it returns
ValidationException. -/
theorem clone_array_semantics (vm : Vm) :
    (∀ r hash et elems, vm.heap.objects.get? r = some ⟨hash, .arrayOf et elems⟩ →
       ∀ h1 r1, vm.heap.allocateArray et elems.length = some (h1, r1) →
       ∃ hash1 vmF, cloneArray vm (.object r) = .ok (vmF, .ok (.object r1))
         ∧ r1 = vm.heap.objects.length
         ∧ r1 ≠ r
         ∧ vmF.heap.objects.get? r1 = some ⟨hash1, .arrayOf et elems⟩
         ∧ vmF.heap.objects.get? r = some ⟨hash, .arrayOf et elems⟩)
    ∧ (∀ v, (∀ r2 hash2 et2 elems2, v = .object r2 →
          vm.heap.objects.get? r2 ≠ some ⟨hash2, .arrayOf et2 elems2⟩) →
       cloneArray vm v = .ok (vm, .error .validationException)) := by
  constructor
  · intro r hash et elems hobj h1 r1 halloc
    obtain ⟨hr1, hobjs, hused, hmax⟩ := allocateArray_shape vm.heap h1 et elems.length r1 halloc
    have hrlt : r < vm.heap.objects.length := listGet_lt _ _ _ hobj
    have hne : r1 ≠ r := by omega
    have hna : vm.newArray et elems.length = .ok ({ vm with heap := h1 }, r1) := by
      unfold Vm.newArray
      rw [halloc]
    have hsrc : h1.objects.get? r = some ⟨hash, .arrayOf et elems⟩ := by
      rw [hobjs]
      exact (listGet_append_left _ _ r hrlt).trans hobj
    have hdest : h1.objects.get? r1
        = some ⟨Int.ofNat vm.heap.objects.length,
            .arrayOf et (List.replicate elems.length et.defaultValue)⟩ := by
      rw [hobjs, hr1]
      exact listGet_append_length _ _
    have hlc : listCopy elems 0 (List.replicate elems.length et.defaultValue) 0 elems.length
        = elems := by
      unfold listCopy
      have hd : (List.replicate elems.length et.defaultValue).drop (0 + elems.length) = [] := by
        rw [Nat.zero_add]
        have := List.drop_length (List.replicate elems.length et.defaultValue)
        rwa [List.length_replicate] at this
      rw [hd]
      simp [List.take_length]
    have hcp : arrayCopy h1 r 0 r1 0 elems.length
        = (if 0 + elems.length ≤ elems.length
              ∧ 0 + elems.length ≤ (List.replicate elems.length et.defaultValue).length
              ∧ et = et then
            Except.ok { h1 with objects := h1.objects.set r1 ⟨Int.ofNat
              vm.heap.objects.length, .arrayOf et (listCopy elems 0
                (List.replicate elems.length et.defaultValue) 0 elems.length)⟩ }
          else Except.error VmError.validationException) := by
      unfold arrayCopy
      rw [hsrc, hdest]
    have hcp2 : arrayCopy h1 r 0 r1 0 elems.length
        = Except.ok { h1 with objects := h1.objects.set r1 ⟨Int.ofNat
            vm.heap.objects.length, .arrayOf et elems⟩ } := by
      rw [hcp, if_pos ⟨by omega, by simp, rfl⟩, hlc]
    have hA : cloneArray vm (.object r)
        = (match vm.newArray et elems.length with
          | StepResult.aborted => StepResult.aborted
          | StepResult.ok (vm1, r1) =>
            match arrayCopy vm1.heap r 0 r1 0 elems.length with
            | Except.error e => StepResult.ok (vm1, Except.error e)
            | Except.ok hX => StepResult.ok ({ vm1 with heap := hX }, .ok (.object r1))) := by
      show (match vm.heap.objects.get? r with
        | some ⟨_, HeapData.arrayOf et2 elems2⟩ =>
          match vm.newArray et2 elems2.length with
          | StepResult.aborted => StepResult.aborted
          | StepResult.ok (vm1, r1) =>
            match arrayCopy vm1.heap r 0 r1 0 elems2.length with
            | Except.error e => StepResult.ok (vm1, Except.error e)
            | Except.ok hX => StepResult.ok ({ vm1 with heap := hX }, Except.ok (Value.object r1))
        | _ => StepResult.ok (vm, Except.error VmError.validationException)) = _
      rw [hobj]
    have hB : cloneArray vm (.object r)
        = (match arrayCopy h1 r 0 r1 0 elems.length with
          | Except.error e => StepResult.ok ({ vm with heap := h1 }, Except.error e)
          | Except.ok hX => StepResult.ok ({ vm with heap := hX }, .ok (.object r1))) := by
      rw [hA, hna]
    have hlen1 : r1 < h1.objects.length := by
      rw [hobjs]
      simp
      omega
    refine ⟨Int.ofNat vm.heap.objects.length,
      { vm with heap := { h1 with objects := h1.objects.set r1 ⟨Int.ofNat
          vm.heap.objects.length, .arrayOf et elems⟩ } }, ?_, hr1, hne, ?_, ?_⟩
    · rw [hB, hcp2]
    · show (h1.objects.set r1 ⟨Int.ofNat vm.heap.objects.length, .arrayOf et elems⟩).get? r1
        = _
      exact listGet_set_self _ _ _ hlen1
    · show (h1.objects.set r1 ⟨Int.ofNat vm.heap.objects.length, .arrayOf et elems⟩).get? r
        = _
      rw [listGet_set_ne _ _ _ _ hne]
      exact hsrc
  · intro v hnon
    cases v with
    | object r2 =>
      cases hobj : vm.heap.objects.get? r2 with
      | none =>
        show (match vm.heap.objects.get? r2 with
          | some ⟨_, HeapData.arrayOf et2 elems2⟩ =>
            match vm.newArray et2 elems2.length with
            | StepResult.aborted => StepResult.aborted
            | StepResult.ok (vm1, r1) =>
              match arrayCopy vm1.heap r2 0 r1 0 elems2.length with
              | Except.error e => StepResult.ok (vm1, Except.error e)
              | Except.ok hX => StepResult.ok ({ vm1 with heap := hX }, Except.ok (Value.object r1))
          | _ => StepResult.ok (vm, Except.error VmError.validationException)) = _
        rw [hobj]
      | some obj =>
        obtain ⟨hash2, data2⟩ := obj
        cases data2 with
        | instanceOf cid fs =>
          show (match vm.heap.objects.get? r2 with
            | some ⟨_, HeapData.arrayOf et2 elems2⟩ =>
              match vm.newArray et2 elems2.length with
              | StepResult.aborted => StepResult.aborted
              | StepResult.ok (vm1, r1) =>
                match arrayCopy vm1.heap r2 0 r1 0 elems2.length with
                | Except.error e => StepResult.ok (vm1, Except.error e)
                | Except.ok hX => StepResult.ok ({ vm1 with heap := hX }, Except.ok (Value.object r1))
            | _ => StepResult.ok (vm, Except.error VmError.validationException)) = _
          rw [hobj]
        | arrayOf et2 elems2 =>
          exact absurd hobj (hnon r2 hash2 et2 elems2 rfl)
    | int i => rfl
    | long l => rfl
    | float fb => rfl
    | double db => rfl
    | null => rfl
    | returnAddress pc => rfl

/-- C10 witness: cloning a concrete int array yields a fresh array with
identical contents and leaves the original in place; cloning null is a
ValidationException. -/
theorem clone_array_semantics_witness :
    (∃ hash1 vmF, cloneArray vmArr (.object 0) = .ok (vmF, .ok (.object 2))
       ∧ 2 = vmArr.heap.objects.length
       ∧ 2 ≠ 0
       ∧ vmF.heap.objects.get? 2 = some ⟨hash1, .arrayOf (.base .int) [.int 5, .int 6]⟩
       ∧ vmF.heap.objects.get? 0 = some ⟨0, .arrayOf (.base .int) [.int 5, .int 6]⟩)
    ∧ cloneArray vmArr .null = .ok (vmArr, .error .validationException) :=
  ⟨(clone_array_semantics vmArr).1 0 0 (.base .int) [.int 5, .int 6] rfl _ 2 rfl,
   (clone_array_semantics vmArr).2 .null
     (fun r2 hash2 et2 elems2 hv => Value.noConfusion hv)⟩

/-- Writing a run of values into an array object, slot by slot from the
end of an already-written prefix, succeeds exactly when the run fits,
and replaces the remaining slots. -/
theorem setElements_spec (hs : Int) (et : ArrayEntryType) :
    ∀ (vs pre old : List Value) (h : Heap) (r : Nat),
      h.objects.get? r = some (HeapObject.mk hs (.arrayOf et (pre ++ old))) →
      old.length = vs.length →
      setElements h r pre.length vs
        = some (Heap.mk (h.objects.set r (HeapObject.mk hs (.arrayOf et (pre ++ vs))))
            h.used h.maxMemory) := by
  intro vs
  induction vs with
  | nil =>
    intro pre old h r hobj hlen
    have hold : old = [] := by
      cases old with
      | nil => rfl
      | cons a b => simp at hlen
    subst hold
    show some h = _
    have hset : h.objects.set r (HeapObject.mk hs (.arrayOf et (pre ++ []))) = h.objects :=
      listSet_same _ _ _ hobj
    rw [hset]
  | cons v vs ih =>
    intro pre old h r hobj hlen
    cases old with
    | nil => simp at hlen
    | cons o old2 =>
      have hrlt : r < h.objects.length := listGet_lt _ _ _ hobj
      have hilt : pre.length < (pre ++ o :: old2).length := by simp
      have hse : setElement h r pre.length v
          = some (Heap.mk
              (h.objects.set r (HeapObject.mk hs (.arrayOf et (pre ++ v :: old2))))
              h.used h.maxMemory) := by
        show (match h.objects.get? r with
          | some ⟨hash, HeapData.arrayOf et3 es⟩ =>
            if pre.length < es.length then
              some { h with objects := h.objects.set r (HeapObject.mk hash (.arrayOf et3 (es.set pre.length v))) }
            else none
          | _ => none) = _
        rw [hobj]
        show (if pre.length < (pre ++ o :: old2).length then
            some { h with objects := h.objects.set r (HeapObject.mk hs (.arrayOf et ((pre ++ o :: old2).set pre.length v))) }
          else none) = _
        rw [if_pos hilt, listSet_append_cons]
      have hstep : setElements h r pre.length (v :: vs)
          = setElements (Heap.mk
              (h.objects.set r (HeapObject.mk hs (.arrayOf et (pre ++ v :: old2))))
              h.used h.maxMemory) r (pre.length + 1) vs := by
        show (match setElement h r pre.length v with
          | some h1 => setElements h1 r (pre.length + 1) vs
          | none => none) = _
        rw [hse]
      have hobj2 : (Heap.mk
            (h.objects.set r (HeapObject.mk hs (.arrayOf et (pre ++ v :: old2))))
            h.used h.maxMemory).objects.get? r
          = some (HeapObject.mk hs (.arrayOf et ((pre ++ [v]) ++ old2))) := by
        show (h.objects.set r (HeapObject.mk hs (.arrayOf et (pre ++ v :: old2)))).get? r = _
        rw [listGet_set_self _ _ _ hrlt]
        simp
      have hlen2 : old2.length = vs.length := by simpa using hlen
      have hih := ih (pre ++ [v]) old2 _ r hobj2 hlen2
      have hlp : (pre ++ [v]).length = pre.length + 1 := by simp
      rw [hstep, ← hlp, hih]
      have hap : (pre ++ [v]) ++ vs = pre ++ v :: vs := by simp
      rw [hap]
      show some _ = _
      congr 1
      show Heap.mk
          ((h.objects.set r (HeapObject.mk hs (.arrayOf et (pre ++ v :: old2)))).set r
            (HeapObject.mk hs (.arrayOf et (pre ++ v :: vs)))) h.used h.maxMemory = _
      rw [List.set_set]

/-- Unfolding of a field write on an instance object. -/
theorem setField_instance (h : Heap) (r : Nat) (i : Nat) (v : Value) (hash : Int)
    (cid : Nat) (fs : List Value)
    (hobj : h.objects.get? r = some (HeapObject.mk hash (.instanceOf cid fs))) :
    setField h r i v
      = Heap.mk (h.objects.set r (HeapObject.mk hash (.instanceOf cid (fs.set i v))))
          h.used h.maxMemory := by
  show (match h.objects.get? r with
    | some ⟨hash2, HeapData.instanceOf cid2 fs2⟩ =>
      { h with objects := h.objects.set r (HeapObject.mk hash2 (.instanceOf cid2 (fs2.set i v))) }
    | _ => h) = _
  rw [hobj]

/-- Allocating an instance of an already-loaded class through
Vm::new_object succeeds without collection when the reservation fits,
appending the fresh zero-filled instance. -/
theorem newObject_alreadyLoaded (reg : NativeRegistry) (ex : ExecOracle)
    (resolve : ResolveOracle) (vmz : Vm) (stack : CallStack) (nm : String)
    (sc : Class)
    (hres : resolve nm = .ok (.alreadyLoaded sc))
    (hcond : vmz.heap.used + allocationSize sc.fieldKinds.length ≤ vmz.heap.maxMemory) :
    newObject reg ex resolve vmz stack nm
      = .ok (Vm.mk
          (Heap.mk
            (vmz.heap.objects ++ [HeapObject.mk (Int.ofNat vmz.heap.objects.length)
              (.instanceOf sc.id (sc.fieldKinds.map FieldKind.defaultValue))])
            (vmz.heap.used + allocationSize sc.fieldKinds.length)
            vmz.heap.maxMemory)
          vmz.statics vmz.callStacks vmz.throwableCallStacks,
        stack, .ok vmz.heap.objects.length) := by
  have hgor : getOrResolveClass reg ex resolve vmz stack nm
      = .ok (vmz, stack, [], .ok sc) := by
    unfold getOrResolveClass
    rw [hres]
  have hall : vmz.heap.allocate sc
      = some (Heap.mk
          (vmz.heap.objects ++ [HeapObject.mk (Int.ofNat vmz.heap.objects.length)
            (.instanceOf sc.id (sc.fieldKinds.map FieldKind.defaultValue))])
          (vmz.heap.used + allocationSize sc.fieldKinds.length)
          vmz.heap.maxMemory,
        vmz.heap.objects.length) := by
    unfold Heap.allocate
    rw [if_pos hcond]
  have hnoc : vmz.newObjectOfClass sc
      = .ok (Vm.mk
          (Heap.mk
            (vmz.heap.objects ++ [HeapObject.mk (Int.ofNat vmz.heap.objects.length)
              (.instanceOf sc.id (sc.fieldKinds.map FieldKind.defaultValue))])
            (vmz.heap.used + allocationSize sc.fieldKinds.length)
            vmz.heap.maxMemory)
          vmz.statics vmz.callStacks vmz.throwableCallStacks,
        vmz.heap.objects.length) := by
    unfold Vm.newObjectOfClass
    rw [hall]
  unfold newObject
  rw [hgor]
  show (match vmz.newObjectOfClass sc with
    | StepResult.aborted => StepResult.aborted
    | StepResult.ok (vmY, rY) => StepResult.ok (vmY, stack, Except.ok rY)) = _
  rw [hnoc]

/-- Allocating a fresh array and filling it slot by slot succeeds when
the reservation fits, and leaves the written values as the array's
elements. -/
theorem newArray_filled (vmz : Vm) (et : ArrayEntryType) (vs : List Value)
    (hcond : vmz.heap.used + allocationSize vs.length ≤ vmz.heap.maxMemory) :
    vmz.newArray et vs.length
      = .ok (Vm.mk
          (Heap.mk
            (vmz.heap.objects ++ [HeapObject.mk (Int.ofNat vmz.heap.objects.length)
              (.arrayOf et (List.replicate vs.length et.defaultValue))])
            (vmz.heap.used + allocationSize vs.length)
            vmz.heap.maxMemory)
          vmz.statics vmz.callStacks vmz.throwableCallStacks,
        vmz.heap.objects.length)
    ∧ setElements
        (Heap.mk
          (vmz.heap.objects ++ [HeapObject.mk (Int.ofNat vmz.heap.objects.length)
            (.arrayOf et (List.replicate vs.length et.defaultValue))])
          (vmz.heap.used + allocationSize vs.length)
          vmz.heap.maxMemory)
        vmz.heap.objects.length 0 vs
      = some (Heap.mk
          (vmz.heap.objects ++ [HeapObject.mk (Int.ofNat vmz.heap.objects.length)
            (.arrayOf et vs)])
          (vmz.heap.used + allocationSize vs.length)
          vmz.heap.maxMemory) := by
  have ha : vmz.heap.allocateArray et vs.length
      = some (Heap.mk
          (vmz.heap.objects ++ [HeapObject.mk (Int.ofNat vmz.heap.objects.length)
            (.arrayOf et (List.replicate vs.length et.defaultValue))])
          (vmz.heap.used + allocationSize vs.length)
          vmz.heap.maxMemory,
        vmz.heap.objects.length) := by
    unfold Heap.allocateArray
    rw [if_pos hcond]
  constructor
  · unfold Vm.newArray
    rw [ha]
  · have hget : (Heap.mk
        (vmz.heap.objects ++ [HeapObject.mk (Int.ofNat vmz.heap.objects.length)
          (.arrayOf et (List.replicate vs.length et.defaultValue))])
        (vmz.heap.used + allocationSize vs.length)
        vmz.heap.maxMemory).objects.get? vmz.heap.objects.length
        = some (HeapObject.mk (Int.ofNat vmz.heap.objects.length)
            (.arrayOf et ([] ++ List.replicate vs.length et.defaultValue))) := by
      show (vmz.heap.objects ++ [HeapObject.mk (Int.ofNat vmz.heap.objects.length)
        (.arrayOf et (List.replicate vs.length et.defaultValue))]).get?
          vmz.heap.objects.length = _
      rw [listGet_append_length]
      simp
    have hlen : (List.replicate vs.length et.defaultValue).length = vs.length := by
      simp
    have hspec := setElements_spec (Int.ofNat vmz.heap.objects.length) et vs []
      (List.replicate vs.length et.defaultValue) _ vmz.heap.objects.length hget hlen
    rw [List.length_nil] at hspec
    rw [hspec]
    congr 1
    show Heap.mk
        ((vmz.heap.objects ++ [HeapObject.mk (Int.ofNat vmz.heap.objects.length)
          (.arrayOf et (List.replicate vs.length et.defaultValue))]).set
            vmz.heap.objects.length
            (HeapObject.mk (Int.ofNat vmz.heap.objects.length) (.arrayOf et ([] ++ vs))))
        (vmz.heap.used + allocationSize vs.length)
        vmz.heap.maxMemory = _
    rw [List.nil_append, listSet_append_length]

/-- C4: constructing a java/lang/String from a host string (with the
String class already loaded and enough free heap) stores at field slot
0 a char array holding exactly the UTF-16 code units of the string,
writes the int 0 into slots 1 and 6 and leaves every other slot at its
zero value, and extract_str_from_java_lang_string on the resulting
object returns the original string. -/
theorem java_lang_string_roundtrip (reg : NativeRegistry) (ex : ExecOracle)
    (resolve : ResolveOracle) (classById : Nat → Option Class) (vm : Vm)
    (stack : CallStack) (s : String) (sc : Class)
    (hres : resolve "java/lang/String" = .ok (.alreadyLoaded sc))
    (hname : sc.name = "java/lang/String")
    (hcid : classById sc.id = some sc)
    (hfk : 7 ≤ sc.fieldKinds.length)
    (hmem : vm.heap.used + allocationSize (encodeUtf16 s.data).length
        + allocationSize sc.fieldKinds.length ≤ vm.heap.maxMemory) :
    ∃ vmF arr strRef,
      newJavaLangStringObject reg ex resolve vm stack s = .ok (vmF, stack, .ok strRef)
      ∧ (∃ hash, vmF.heap.objects.get? arr
          = some (HeapObject.mk hash (.arrayOf (.base .char) (stringUnits s))))
      ∧ (∃ hash fields, vmF.heap.objects.get? strRef
            = some (HeapObject.mk hash (.instanceOf sc.id fields))
          ∧ fields.get? 0 = some (.object arr)
          ∧ fields.get? 1 = some (.int 0)
          ∧ fields.get? 6 = some (.int 0)
          ∧ ∀ i, i ≠ 0 → i ≠ 1 → i ≠ 6 →
              fields.get? i = (sc.fieldKinds.get? i).map FieldKind.defaultValue)
      ∧ extractStrFromJavaLangString classById vmF strRef = .ok s := by
  have hlu : (stringUnits s).length = (encodeUtf16 s.data).length := List.length_map _ _
  have hcondU : vm.heap.used + allocationSize (stringUnits s).length ≤ vm.heap.maxMemory := by
    rw [hlu]
    omega
  obtain ⟨hna, hse⟩ := newArray_filled vm (.base .char) (stringUnits s) hcondU
  have hcond2 : (Vm.mk (Heap.mk (vm.heap.objects ++ [HeapObject.mk (Int.ofNat vm.heap.objects.length) (.arrayOf (.base .char) (stringUnits s))]) (vm.heap.used + allocationSize (stringUnits s).length) vm.heap.maxMemory) vm.statics vm.callStacks vm.throwableCallStacks).heap.used + allocationSize sc.fieldKinds.length
      ≤ (Vm.mk (Heap.mk (vm.heap.objects ++ [HeapObject.mk (Int.ofNat vm.heap.objects.length) (.arrayOf (.base .char) (stringUnits s))]) (vm.heap.used + allocationSize (stringUnits s).length) vm.heap.maxMemory) vm.statics vm.callStacks vm.throwableCallStacks).heap.maxMemory := by
    show (vm.heap.used + allocationSize (stringUnits s).length) + allocationSize sc.fieldKinds.length ≤ vm.heap.maxMemory
    rw [hlu]
    omega
  have hno : newObject reg ex resolve (Vm.mk (Heap.mk (vm.heap.objects ++ [HeapObject.mk (Int.ofNat vm.heap.objects.length) (.arrayOf (.base .char) (stringUnits s))]) (vm.heap.used + allocationSize (stringUnits s).length) vm.heap.maxMemory) vm.statics vm.callStacks vm.throwableCallStacks) stack "java/lang/String"
      = .ok (Vm.mk (Heap.mk ((vm.heap.objects ++ [HeapObject.mk (Int.ofNat vm.heap.objects.length) (.arrayOf (.base .char) (stringUnits s))]) ++ [HeapObject.mk (Int.ofNat (vm.heap.objects ++ [HeapObject.mk (Int.ofNat vm.heap.objects.length) (.arrayOf (.base .char) (stringUnits s))]).length) (.instanceOf sc.id (sc.fieldKinds.map FieldKind.defaultValue))]) ((vm.heap.used + allocationSize (stringUnits s).length) + allocationSize sc.fieldKinds.length) vm.heap.maxMemory) vm.statics vm.callStacks vm.throwableCallStacks,
          stack, .ok ((vm.heap.objects ++ [HeapObject.mk (Int.ofNat vm.heap.objects.length) (.arrayOf (.base .char) (stringUnits s))]).length)) :=
    newObject_alreadyLoaded reg ex resolve (Vm.mk (Heap.mk (vm.heap.objects ++ [HeapObject.mk (Int.ofNat vm.heap.objects.length) (.arrayOf (.base .char) (stringUnits s))]) (vm.heap.used + allocationSize (stringUnits s).length) vm.heap.maxMemory) vm.statics vm.callStacks vm.throwableCallStacks) stack "java/lang/String" sc hres hcond2
  have hget0 : (Heap.mk ((vm.heap.objects ++ [HeapObject.mk (Int.ofNat vm.heap.objects.length) (.arrayOf (.base .char) (stringUnits s))]) ++ [HeapObject.mk (Int.ofNat (vm.heap.objects ++ [HeapObject.mk (Int.ofNat vm.heap.objects.length) (.arrayOf (.base .char) (stringUnits s))]).length) (.instanceOf sc.id (sc.fieldKinds.map FieldKind.defaultValue))]) ((vm.heap.used + allocationSize (stringUnits s).length) + allocationSize sc.fieldKinds.length) vm.heap.maxMemory : Heap).objects.get? ((vm.heap.objects ++ [HeapObject.mk (Int.ofNat vm.heap.objects.length) (.arrayOf (.base .char) (stringUnits s))]).length) = some (HeapObject.mk (Int.ofNat (vm.heap.objects ++ [HeapObject.mk (Int.ofNat vm.heap.objects.length) (.arrayOf (.base .char) (stringUnits s))]).length) (.instanceOf sc.id (sc.fieldKinds.map FieldKind.defaultValue))) := by
    show (((vm.heap.objects ++ [HeapObject.mk (Int.ofNat vm.heap.objects.length) (.arrayOf (.base .char) (stringUnits s))]) ++ [HeapObject.mk (Int.ofNat (vm.heap.objects ++ [HeapObject.mk (Int.ofNat vm.heap.objects.length) (.arrayOf (.base .char) (stringUnits s))]).length) (.instanceOf sc.id (sc.fieldKinds.map FieldKind.defaultValue))])).get? ((vm.heap.objects ++ [HeapObject.mk (Int.ofNat vm.heap.objects.length) (.arrayOf (.base .char) (stringUnits s))]).length) = _
    exact listGet_append_length _ _
  have hsf1 : setField (Heap.mk ((vm.heap.objects ++ [HeapObject.mk (Int.ofNat vm.heap.objects.length) (.arrayOf (.base .char) (stringUnits s))]) ++ [HeapObject.mk (Int.ofNat (vm.heap.objects ++ [HeapObject.mk (Int.ofNat vm.heap.objects.length) (.arrayOf (.base .char) (stringUnits s))]).length) (.instanceOf sc.id (sc.fieldKinds.map FieldKind.defaultValue))]) ((vm.heap.used + allocationSize (stringUnits s).length) + allocationSize sc.fieldKinds.length) vm.heap.maxMemory) ((vm.heap.objects ++ [HeapObject.mk (Int.ofNat vm.heap.objects.length) (.arrayOf (.base .char) (stringUnits s))]).length) 0 (Value.object (vm.heap.objects.length))
      = Heap.mk ((vm.heap.objects ++ [HeapObject.mk (Int.ofNat vm.heap.objects.length) (.arrayOf (.base .char) (stringUnits s))]) ++ [HeapObject.mk (Int.ofNat (vm.heap.objects ++ [HeapObject.mk (Int.ofNat vm.heap.objects.length) (.arrayOf (.base .char) (stringUnits s))]).length) (.instanceOf sc.id ((sc.fieldKinds.map FieldKind.defaultValue).set 0 (Value.object vm.heap.objects.length)))]) (((vm.heap.used + allocationSize (stringUnits s).length) + allocationSize sc.fieldKinds.length)) vm.heap.maxMemory := by
    rw [setField_instance (Heap.mk ((vm.heap.objects ++ [HeapObject.mk (Int.ofNat vm.heap.objects.length) (.arrayOf (.base .char) (stringUnits s))]) ++ [HeapObject.mk (Int.ofNat (vm.heap.objects ++ [HeapObject.mk (Int.ofNat vm.heap.objects.length) (.arrayOf (.base .char) (stringUnits s))]).length) (.instanceOf sc.id (sc.fieldKinds.map FieldKind.defaultValue))]) ((vm.heap.used + allocationSize (stringUnits s).length) + allocationSize sc.fieldKinds.length) vm.heap.maxMemory) ((vm.heap.objects ++ [HeapObject.mk (Int.ofNat vm.heap.objects.length) (.arrayOf (.base .char) (stringUnits s))]).length) 0 (Value.object (vm.heap.objects.length)) (Int.ofNat ((vm.heap.objects ++ [HeapObject.mk (Int.ofNat vm.heap.objects.length) (.arrayOf (.base .char) (stringUnits s))]).length)) sc.id (sc.fieldKinds.map FieldKind.defaultValue) hget0]
    show Heap.mk ((((vm.heap.objects ++ [HeapObject.mk (Int.ofNat vm.heap.objects.length) (.arrayOf (.base .char) (stringUnits s))]) ++ [HeapObject.mk (Int.ofNat (vm.heap.objects ++ [HeapObject.mk (Int.ofNat vm.heap.objects.length) (.arrayOf (.base .char) (stringUnits s))]).length) (.instanceOf sc.id (sc.fieldKinds.map FieldKind.defaultValue))])).set ((vm.heap.objects ++ [HeapObject.mk (Int.ofNat vm.heap.objects.length) (.arrayOf (.base .char) (stringUnits s))]).length) (HeapObject.mk (Int.ofNat (vm.heap.objects ++ [HeapObject.mk (Int.ofNat vm.heap.objects.length) (.arrayOf (.base .char) (stringUnits s))]).length) (.instanceOf sc.id ((sc.fieldKinds.map FieldKind.defaultValue).set 0 (Value.object vm.heap.objects.length))))) (((vm.heap.used + allocationSize (stringUnits s).length) + allocationSize sc.fieldKinds.length)) vm.heap.maxMemory = _
    rw [listSet_append_length]
  have hget1 : (Heap.mk ((vm.heap.objects ++ [HeapObject.mk (Int.ofNat vm.heap.objects.length) (.arrayOf (.base .char) (stringUnits s))]) ++ [HeapObject.mk (Int.ofNat (vm.heap.objects ++ [HeapObject.mk (Int.ofNat vm.heap.objects.length) (.arrayOf (.base .char) (stringUnits s))]).length) (.instanceOf sc.id ((sc.fieldKinds.map FieldKind.defaultValue).set 0 (Value.object vm.heap.objects.length)))]) (((vm.heap.used + allocationSize (stringUnits s).length) + allocationSize sc.fieldKinds.length)) vm.heap.maxMemory).objects.get? ((vm.heap.objects ++ [HeapObject.mk (Int.ofNat vm.heap.objects.length) (.arrayOf (.base .char) (stringUnits s))]).length)
      = some (HeapObject.mk (Int.ofNat (vm.heap.objects ++ [HeapObject.mk (Int.ofNat vm.heap.objects.length) (.arrayOf (.base .char) (stringUnits s))]).length) (.instanceOf sc.id ((sc.fieldKinds.map FieldKind.defaultValue).set 0 (Value.object vm.heap.objects.length)))) := by
    show ((vm.heap.objects ++ [HeapObject.mk (Int.ofNat vm.heap.objects.length) (.arrayOf (.base .char) (stringUnits s))]) ++ [HeapObject.mk (Int.ofNat (vm.heap.objects ++ [HeapObject.mk (Int.ofNat vm.heap.objects.length) (.arrayOf (.base .char) (stringUnits s))]).length) (.instanceOf sc.id ((sc.fieldKinds.map FieldKind.defaultValue).set 0 (Value.object vm.heap.objects.length)))]).get? ((vm.heap.objects ++ [HeapObject.mk (Int.ofNat vm.heap.objects.length) (.arrayOf (.base .char) (stringUnits s))]).length) = _
    exact listGet_append_length _ _
  have hsf2 : setField (Heap.mk ((vm.heap.objects ++ [HeapObject.mk (Int.ofNat vm.heap.objects.length) (.arrayOf (.base .char) (stringUnits s))]) ++ [HeapObject.mk (Int.ofNat (vm.heap.objects ++ [HeapObject.mk (Int.ofNat vm.heap.objects.length) (.arrayOf (.base .char) (stringUnits s))]).length) (.instanceOf sc.id ((sc.fieldKinds.map FieldKind.defaultValue).set 0 (Value.object vm.heap.objects.length)))]) (((vm.heap.used + allocationSize (stringUnits s).length) + allocationSize sc.fieldKinds.length)) vm.heap.maxMemory) ((vm.heap.objects ++ [HeapObject.mk (Int.ofNat vm.heap.objects.length) (.arrayOf (.base .char) (stringUnits s))]).length) 1 (Value.int 0)
      = Heap.mk ((vm.heap.objects ++ [HeapObject.mk (Int.ofNat vm.heap.objects.length) (.arrayOf (.base .char) (stringUnits s))]) ++ [HeapObject.mk (Int.ofNat (vm.heap.objects ++ [HeapObject.mk (Int.ofNat vm.heap.objects.length) (.arrayOf (.base .char) (stringUnits s))]).length) (.instanceOf sc.id (((sc.fieldKinds.map FieldKind.defaultValue).set 0 (Value.object vm.heap.objects.length)).set 1 (Value.int 0)))]) (((vm.heap.used + allocationSize (stringUnits s).length) + allocationSize sc.fieldKinds.length)) vm.heap.maxMemory := by
    rw [setField_instance _ ((vm.heap.objects ++ [HeapObject.mk (Int.ofNat vm.heap.objects.length) (.arrayOf (.base .char) (stringUnits s))]).length) 1 (Value.int 0) (Int.ofNat ((vm.heap.objects ++ [HeapObject.mk (Int.ofNat vm.heap.objects.length) (.arrayOf (.base .char) (stringUnits s))]).length)) sc.id ((sc.fieldKinds.map FieldKind.defaultValue).set 0 (Value.object vm.heap.objects.length)) hget1]
    show Heap.mk (((vm.heap.objects ++ [HeapObject.mk (Int.ofNat vm.heap.objects.length) (.arrayOf (.base .char) (stringUnits s))]) ++ [HeapObject.mk (Int.ofNat (vm.heap.objects ++ [HeapObject.mk (Int.ofNat vm.heap.objects.length) (.arrayOf (.base .char) (stringUnits s))]).length) (.instanceOf sc.id ((sc.fieldKinds.map FieldKind.defaultValue).set 0 (Value.object vm.heap.objects.length)))]).set ((vm.heap.objects ++ [HeapObject.mk (Int.ofNat vm.heap.objects.length) (.arrayOf (.base .char) (stringUnits s))]).length) (HeapObject.mk (Int.ofNat (vm.heap.objects ++ [HeapObject.mk (Int.ofNat vm.heap.objects.length) (.arrayOf (.base .char) (stringUnits s))]).length) (.instanceOf sc.id (((sc.fieldKinds.map FieldKind.defaultValue).set 0 (Value.object vm.heap.objects.length)).set 1 (Value.int 0))))) (((vm.heap.used + allocationSize (stringUnits s).length) + allocationSize sc.fieldKinds.length)) vm.heap.maxMemory = _
    rw [listSet_append_length]
  have hget2 : (Heap.mk ((vm.heap.objects ++ [HeapObject.mk (Int.ofNat vm.heap.objects.length) (.arrayOf (.base .char) (stringUnits s))]) ++ [HeapObject.mk (Int.ofNat (vm.heap.objects ++ [HeapObject.mk (Int.ofNat vm.heap.objects.length) (.arrayOf (.base .char) (stringUnits s))]).length) (.instanceOf sc.id (((sc.fieldKinds.map FieldKind.defaultValue).set 0 (Value.object vm.heap.objects.length)).set 1 (Value.int 0)))]) (((vm.heap.used + allocationSize (stringUnits s).length) + allocationSize sc.fieldKinds.length)) vm.heap.maxMemory).objects.get? ((vm.heap.objects ++ [HeapObject.mk (Int.ofNat vm.heap.objects.length) (.arrayOf (.base .char) (stringUnits s))]).length)
      = some (HeapObject.mk (Int.ofNat (vm.heap.objects ++ [HeapObject.mk (Int.ofNat vm.heap.objects.length) (.arrayOf (.base .char) (stringUnits s))]).length) (.instanceOf sc.id (((sc.fieldKinds.map FieldKind.defaultValue).set 0 (Value.object vm.heap.objects.length)).set 1 (Value.int 0)))) := by
    show ((vm.heap.objects ++ [HeapObject.mk (Int.ofNat vm.heap.objects.length) (.arrayOf (.base .char) (stringUnits s))]) ++ [HeapObject.mk (Int.ofNat (vm.heap.objects ++ [HeapObject.mk (Int.ofNat vm.heap.objects.length) (.arrayOf (.base .char) (stringUnits s))]).length) (.instanceOf sc.id (((sc.fieldKinds.map FieldKind.defaultValue).set 0 (Value.object vm.heap.objects.length)).set 1 (Value.int 0)))]).get? ((vm.heap.objects ++ [HeapObject.mk (Int.ofNat vm.heap.objects.length) (.arrayOf (.base .char) (stringUnits s))]).length) = _
    exact listGet_append_length _ _
  have hsf3 : setField (Heap.mk ((vm.heap.objects ++ [HeapObject.mk (Int.ofNat vm.heap.objects.length) (.arrayOf (.base .char) (stringUnits s))]) ++ [HeapObject.mk (Int.ofNat (vm.heap.objects ++ [HeapObject.mk (Int.ofNat vm.heap.objects.length) (.arrayOf (.base .char) (stringUnits s))]).length) (.instanceOf sc.id (((sc.fieldKinds.map FieldKind.defaultValue).set 0 (Value.object vm.heap.objects.length)).set 1 (Value.int 0)))]) (((vm.heap.used + allocationSize (stringUnits s).length) + allocationSize sc.fieldKinds.length)) vm.heap.maxMemory) ((vm.heap.objects ++ [HeapObject.mk (Int.ofNat vm.heap.objects.length) (.arrayOf (.base .char) (stringUnits s))]).length) 6 (Value.int 0)
      = Heap.mk ((vm.heap.objects ++ [HeapObject.mk (Int.ofNat vm.heap.objects.length) (.arrayOf (.base .char) (stringUnits s))]) ++ [HeapObject.mk (Int.ofNat (vm.heap.objects ++ [HeapObject.mk (Int.ofNat vm.heap.objects.length) (.arrayOf (.base .char) (stringUnits s))]).length) (.instanceOf sc.id ((((sc.fieldKinds.map FieldKind.defaultValue).set 0 (Value.object vm.heap.objects.length)).set 1 (Value.int 0)).set 6 (Value.int 0)))]) ((vm.heap.used + allocationSize (stringUnits s).length) + allocationSize sc.fieldKinds.length) vm.heap.maxMemory := by
    rw [setField_instance _ ((vm.heap.objects ++ [HeapObject.mk (Int.ofNat vm.heap.objects.length) (.arrayOf (.base .char) (stringUnits s))]).length) 6 (Value.int 0) (Int.ofNat ((vm.heap.objects ++ [HeapObject.mk (Int.ofNat vm.heap.objects.length) (.arrayOf (.base .char) (stringUnits s))]).length)) sc.id (((sc.fieldKinds.map FieldKind.defaultValue).set 0 (Value.object vm.heap.objects.length)).set 1 (Value.int 0)) hget2]
    show Heap.mk (((vm.heap.objects ++ [HeapObject.mk (Int.ofNat vm.heap.objects.length) (.arrayOf (.base .char) (stringUnits s))]) ++ [HeapObject.mk (Int.ofNat (vm.heap.objects ++ [HeapObject.mk (Int.ofNat vm.heap.objects.length) (.arrayOf (.base .char) (stringUnits s))]).length) (.instanceOf sc.id (((sc.fieldKinds.map FieldKind.defaultValue).set 0 (Value.object vm.heap.objects.length)).set 1 (Value.int 0)))]).set ((vm.heap.objects ++ [HeapObject.mk (Int.ofNat vm.heap.objects.length) (.arrayOf (.base .char) (stringUnits s))]).length) (HeapObject.mk (Int.ofNat (vm.heap.objects ++ [HeapObject.mk (Int.ofNat vm.heap.objects.length) (.arrayOf (.base .char) (stringUnits s))]).length) (.instanceOf sc.id ((((sc.fieldKinds.map FieldKind.defaultValue).set 0 (Value.object vm.heap.objects.length)).set 1 (Value.int 0)).set 6 (Value.int 0))))) (((vm.heap.used + allocationSize (stringUnits s).length) + allocationSize sc.fieldKinds.length)) vm.heap.maxMemory = _
    rw [listSet_append_length]
  have hheapF : setField (setField (setField (Heap.mk ((vm.heap.objects ++ [HeapObject.mk (Int.ofNat vm.heap.objects.length) (.arrayOf (.base .char) (stringUnits s))]) ++ [HeapObject.mk (Int.ofNat (vm.heap.objects ++ [HeapObject.mk (Int.ofNat vm.heap.objects.length) (.arrayOf (.base .char) (stringUnits s))]).length) (.instanceOf sc.id (sc.fieldKinds.map FieldKind.defaultValue))]) ((vm.heap.used + allocationSize (stringUnits s).length) + allocationSize sc.fieldKinds.length) vm.heap.maxMemory) ((vm.heap.objects ++ [HeapObject.mk (Int.ofNat vm.heap.objects.length) (.arrayOf (.base .char) (stringUnits s))]).length) 0 (Value.object (vm.heap.objects.length))) ((vm.heap.objects ++ [HeapObject.mk (Int.ofNat vm.heap.objects.length) (.arrayOf (.base .char) (stringUnits s))]).length) 1 (Value.int 0)) ((vm.heap.objects ++ [HeapObject.mk (Int.ofNat vm.heap.objects.length) (.arrayOf (.base .char) (stringUnits s))]).length) 6 (Value.int 0)
      = Heap.mk ((vm.heap.objects ++ [HeapObject.mk (Int.ofNat vm.heap.objects.length) (.arrayOf (.base .char) (stringUnits s))]) ++ [HeapObject.mk (Int.ofNat (vm.heap.objects ++ [HeapObject.mk (Int.ofNat vm.heap.objects.length) (.arrayOf (.base .char) (stringUnits s))]).length) (.instanceOf sc.id ((((sc.fieldKinds.map FieldKind.defaultValue).set 0 (Value.object vm.heap.objects.length)).set 1 (Value.int 0)).set 6 (Value.int 0)))]) ((vm.heap.used + allocationSize (stringUnits s).length) + allocationSize sc.fieldKinds.length) vm.heap.maxMemory := by
    rw [hsf1, hsf2, hsf3]
  have hmain : newJavaLangStringObject reg ex resolve vm stack s
      = .ok (Vm.mk (Heap.mk ((vm.heap.objects ++ [HeapObject.mk (Int.ofNat vm.heap.objects.length) (.arrayOf (.base .char) (stringUnits s))]) ++ [HeapObject.mk (Int.ofNat (vm.heap.objects ++ [HeapObject.mk (Int.ofNat vm.heap.objects.length) (.arrayOf (.base .char) (stringUnits s))]).length) (.instanceOf sc.id ((((sc.fieldKinds.map FieldKind.defaultValue).set 0 (Value.object vm.heap.objects.length)).set 1 (Value.int 0)).set 6 (Value.int 0)))]) ((vm.heap.used + allocationSize (stringUnits s).length) + allocationSize sc.fieldKinds.length) vm.heap.maxMemory) vm.statics vm.callStacks vm.throwableCallStacks, stack, Except.ok ((vm.heap.objects ++ [HeapObject.mk (Int.ofNat vm.heap.objects.length) (.arrayOf (.base .char) (stringUnits s))]).length)) := by
    unfold newJavaLangStringObject
    rw [hna]
    show (match setElements (Heap.mk (vm.heap.objects ++ [HeapObject.mk (Int.ofNat vm.heap.objects.length) (.arrayOf (.base .char) (List.replicate (stringUnits s).length ((ArrayEntryType.base BaseType.char).defaultValue)))]) (vm.heap.used + allocationSize (stringUnits s).length) vm.heap.maxMemory) (vm.heap.objects.length) 0 (stringUnits s) with
      | none => StepResult.aborted
      | some h1 =>
        match newObject reg ex resolve (Vm.mk h1 vm.statics vm.callStacks vm.throwableCallStacks) stack "java/lang/String" with
        | StepResult.aborted => StepResult.aborted
        | StepResult.ok (vm3, stack3, Except.error f) => StepResult.ok (vm3, stack3, Except.error f)
        | StepResult.ok (vm3, stack3, Except.ok strRef2) =>
          StepResult.ok (Vm.mk (setField (setField (setField vm3.heap strRef2 0 (Value.object (vm.heap.objects.length))) strRef2 1 (Value.int 0)) strRef2 6 (Value.int 0)) vm3.statics vm3.callStacks vm3.throwableCallStacks, stack3, Except.ok strRef2)) = _
    rw [hse]
    show (match newObject reg ex resolve (Vm.mk (Heap.mk (vm.heap.objects ++ [HeapObject.mk (Int.ofNat vm.heap.objects.length) (.arrayOf (.base .char) (stringUnits s))]) (vm.heap.used + allocationSize (stringUnits s).length) vm.heap.maxMemory) vm.statics vm.callStacks vm.throwableCallStacks) stack "java/lang/String" with
      | StepResult.aborted => StepResult.aborted
      | StepResult.ok (vm3, stack3, Except.error f) => StepResult.ok (vm3, stack3, Except.error f)
      | StepResult.ok (vm3, stack3, Except.ok strRef2) =>
        StepResult.ok (Vm.mk (setField (setField (setField vm3.heap strRef2 0 (Value.object (vm.heap.objects.length))) strRef2 1 (Value.int 0)) strRef2 6 (Value.int 0)) vm3.statics vm3.callStacks vm3.throwableCallStacks, stack3, Except.ok strRef2)) = _
    rw [hno]
    show StepResult.ok (Vm.mk (setField (setField (setField (Heap.mk ((vm.heap.objects ++ [HeapObject.mk (Int.ofNat vm.heap.objects.length) (.arrayOf (.base .char) (stringUnits s))]) ++ [HeapObject.mk (Int.ofNat (vm.heap.objects ++ [HeapObject.mk (Int.ofNat vm.heap.objects.length) (.arrayOf (.base .char) (stringUnits s))]).length) (.instanceOf sc.id (sc.fieldKinds.map FieldKind.defaultValue))]) ((vm.heap.used + allocationSize (stringUnits s).length) + allocationSize sc.fieldKinds.length) vm.heap.maxMemory) ((vm.heap.objects ++ [HeapObject.mk (Int.ofNat vm.heap.objects.length) (.arrayOf (.base .char) (stringUnits s))]).length) 0 (Value.object (vm.heap.objects.length))) ((vm.heap.objects ++ [HeapObject.mk (Int.ofNat vm.heap.objects.length) (.arrayOf (.base .char) (stringUnits s))]).length) 1 (Value.int 0)) ((vm.heap.objects ++ [HeapObject.mk (Int.ofNat vm.heap.objects.length) (.arrayOf (.base .char) (stringUnits s))]).length) 6 (Value.int 0)) vm.statics vm.callStacks vm.throwableCallStacks, stack, Except.ok ((vm.heap.objects ++ [HeapObject.mk (Int.ofNat vm.heap.objects.length) (.arrayOf (.base .char) (stringUnits s))]).length)) = _
    rw [hheapF]
  have hl : (vm.heap.objects.length) < ((vm.heap.objects ++ [HeapObject.mk (Int.ofNat vm.heap.objects.length) (.arrayOf (.base .char) (stringUnits s))])).length := by simp
  have hdl : ((sc.fieldKinds.map FieldKind.defaultValue)).length = sc.fieldKinds.length := List.length_map _ _
  have hgetArrF : (Heap.mk ((vm.heap.objects ++ [HeapObject.mk (Int.ofNat vm.heap.objects.length) (.arrayOf (.base .char) (stringUnits s))]) ++ [HeapObject.mk (Int.ofNat (vm.heap.objects ++ [HeapObject.mk (Int.ofNat vm.heap.objects.length) (.arrayOf (.base .char) (stringUnits s))]).length) (.instanceOf sc.id ((((sc.fieldKinds.map FieldKind.defaultValue).set 0 (Value.object vm.heap.objects.length)).set 1 (Value.int 0)).set 6 (Value.int 0)))]) ((vm.heap.used + allocationSize (stringUnits s).length) + allocationSize sc.fieldKinds.length) vm.heap.maxMemory : Heap).objects.get? (vm.heap.objects.length) = some (HeapObject.mk (Int.ofNat vm.heap.objects.length) (.arrayOf (.base .char) (stringUnits s))) := by
    show (((vm.heap.objects ++ [HeapObject.mk (Int.ofNat vm.heap.objects.length) (.arrayOf (.base .char) (stringUnits s))]) ++ [HeapObject.mk (Int.ofNat (vm.heap.objects ++ [HeapObject.mk (Int.ofNat vm.heap.objects.length) (.arrayOf (.base .char) (stringUnits s))]).length) (.instanceOf sc.id ((((sc.fieldKinds.map FieldKind.defaultValue).set 0 (Value.object vm.heap.objects.length)).set 1 (Value.int 0)).set 6 (Value.int 0)))])).get? (vm.heap.objects.length) = _
    rw [listGet_append_left _ _ _ hl]
    exact listGet_append_length _ _
  have hgetStrF : (Heap.mk ((vm.heap.objects ++ [HeapObject.mk (Int.ofNat vm.heap.objects.length) (.arrayOf (.base .char) (stringUnits s))]) ++ [HeapObject.mk (Int.ofNat (vm.heap.objects ++ [HeapObject.mk (Int.ofNat vm.heap.objects.length) (.arrayOf (.base .char) (stringUnits s))]).length) (.instanceOf sc.id ((((sc.fieldKinds.map FieldKind.defaultValue).set 0 (Value.object vm.heap.objects.length)).set 1 (Value.int 0)).set 6 (Value.int 0)))]) ((vm.heap.used + allocationSize (stringUnits s).length) + allocationSize sc.fieldKinds.length) vm.heap.maxMemory : Heap).objects.get? ((vm.heap.objects ++ [HeapObject.mk (Int.ofNat vm.heap.objects.length) (.arrayOf (.base .char) (stringUnits s))]).length) = some (HeapObject.mk (Int.ofNat (vm.heap.objects ++ [HeapObject.mk (Int.ofNat vm.heap.objects.length) (.arrayOf (.base .char) (stringUnits s))]).length) (.instanceOf sc.id ((((sc.fieldKinds.map FieldKind.defaultValue).set 0 (Value.object vm.heap.objects.length)).set 1 (Value.int 0)).set 6 (Value.int 0)))) := by
    show (((vm.heap.objects ++ [HeapObject.mk (Int.ofNat vm.heap.objects.length) (.arrayOf (.base .char) (stringUnits s))]) ++ [HeapObject.mk (Int.ofNat (vm.heap.objects ++ [HeapObject.mk (Int.ofNat vm.heap.objects.length) (.arrayOf (.base .char) (stringUnits s))]).length) (.instanceOf sc.id ((((sc.fieldKinds.map FieldKind.defaultValue).set 0 (Value.object vm.heap.objects.length)).set 1 (Value.int 0)).set 6 (Value.int 0)))])).get? ((vm.heap.objects ++ [HeapObject.mk (Int.ofNat vm.heap.objects.length) (.arrayOf (.base .char) (stringUnits s))]).length) = _
    exact listGet_append_length _ _
  have hf0 : (((((sc.fieldKinds.map FieldKind.defaultValue).set 0 (Value.object vm.heap.objects.length)).set 1 (Value.int 0)).set 6 (Value.int 0))).get? 0 = some (Value.object (vm.heap.objects.length)) := by
    rw [listGet_set_ne ((((sc.fieldKinds.map FieldKind.defaultValue).set 0 (Value.object vm.heap.objects.length)).set 1 (Value.int 0))) 6 0 _ (by omega), listGet_set_ne (((sc.fieldKinds.map FieldKind.defaultValue).set 0 (Value.object vm.heap.objects.length))) 1 0 _ (by omega)]
    exact listGet_set_self ((sc.fieldKinds.map FieldKind.defaultValue)) 0 _ (by rw [hdl]; omega)
  have hf1 : (((((sc.fieldKinds.map FieldKind.defaultValue).set 0 (Value.object vm.heap.objects.length)).set 1 (Value.int 0)).set 6 (Value.int 0))).get? 1 = some (Value.int 0) := by
    rw [listGet_set_ne ((((sc.fieldKinds.map FieldKind.defaultValue).set 0 (Value.object vm.heap.objects.length)).set 1 (Value.int 0))) 6 1 _ (by omega)]
    exact listGet_set_self (((sc.fieldKinds.map FieldKind.defaultValue).set 0 (Value.object vm.heap.objects.length))) 1 _ (by rw [List.length_set, hdl]; omega)
  have hf6 : (((((sc.fieldKinds.map FieldKind.defaultValue).set 0 (Value.object vm.heap.objects.length)).set 1 (Value.int 0)).set 6 (Value.int 0))).get? 6 = some (Value.int 0) :=
    listGet_set_self ((((sc.fieldKinds.map FieldKind.defaultValue).set 0 (Value.object vm.heap.objects.length)).set 1 (Value.int 0))) 6 _ (by rw [List.length_set, List.length_set, hdl]; omega)
  have hfo : ∀ i, i ≠ 0 → i ≠ 1 → i ≠ 6 →
      (((((sc.fieldKinds.map FieldKind.defaultValue).set 0 (Value.object vm.heap.objects.length)).set 1 (Value.int 0)).set 6 (Value.int 0))).get? i = (sc.fieldKinds.get? i).map FieldKind.defaultValue := by
    intro i h0 h1 h6
    rw [listGet_set_ne ((((sc.fieldKinds.map FieldKind.defaultValue).set 0 (Value.object vm.heap.objects.length)).set 1 (Value.int 0))) 6 i _ (fun e => h6 e.symm),
      listGet_set_ne (((sc.fieldKinds.map FieldKind.defaultValue).set 0 (Value.object vm.heap.objects.length))) 1 i _ (fun e => h1 e.symm),
      listGet_set_ne ((sc.fieldKinds.map FieldKind.defaultValue)) 0 i _ (fun e => h0 e.symm)]
    exact listGet_map _ _ _
  have hcoll : collectCodeUnits ((stringUnits s)) = some (encodeUtf16 s.data) :=
    collectCodeUnits_map_int (encodeUtf16 s.data) (encodeUtf16_lt s.data)
  have x1 : extractStrFromJavaLangString classById (Vm.mk (Heap.mk ((vm.heap.objects ++ [HeapObject.mk (Int.ofNat vm.heap.objects.length) (.arrayOf (.base .char) (stringUnits s))]) ++ [HeapObject.mk (Int.ofNat (vm.heap.objects ++ [HeapObject.mk (Int.ofNat vm.heap.objects.length) (.arrayOf (.base .char) (stringUnits s))]).length) (.instanceOf sc.id ((((sc.fieldKinds.map FieldKind.defaultValue).set 0 (Value.object vm.heap.objects.length)).set 1 (Value.int 0)).set 6 (Value.int 0)))]) ((vm.heap.used + allocationSize (stringUnits s).length) + allocationSize sc.fieldKinds.length) vm.heap.maxMemory) vm.statics vm.callStacks vm.throwableCallStacks) ((vm.heap.objects ++ [HeapObject.mk (Int.ofNat vm.heap.objects.length) (.arrayOf (.base .char) (stringUnits s))]).length)
      = (match classById sc.id with
        | none => Except.error VmError.validationException
        | some cls =>
          if cls.name = "java/lang/String" then
            match (((((sc.fieldKinds.map FieldKind.defaultValue).set 0 (Value.object vm.heap.objects.length)).set 1 (Value.int 0)).set 6 (Value.int 0))).get? 0 with
            | some (Value.object arr2) => stringFromCharArray (Heap.mk ((vm.heap.objects ++ [HeapObject.mk (Int.ofNat vm.heap.objects.length) (.arrayOf (.base .char) (stringUnits s))]) ++ [HeapObject.mk (Int.ofNat (vm.heap.objects ++ [HeapObject.mk (Int.ofNat vm.heap.objects.length) (.arrayOf (.base .char) (stringUnits s))]).length) (.instanceOf sc.id ((((sc.fieldKinds.map FieldKind.defaultValue).set 0 (Value.object vm.heap.objects.length)).set 1 (Value.int 0)).set 6 (Value.int 0)))]) ((vm.heap.used + allocationSize (stringUnits s).length) + allocationSize sc.fieldKinds.length) vm.heap.maxMemory) arr2
            | _ => Except.error VmError.validationException
          else Except.error VmError.validationException) := by
    show (match (Heap.mk ((vm.heap.objects ++ [HeapObject.mk (Int.ofNat vm.heap.objects.length) (.arrayOf (.base .char) (stringUnits s))]) ++ [HeapObject.mk (Int.ofNat (vm.heap.objects ++ [HeapObject.mk (Int.ofNat vm.heap.objects.length) (.arrayOf (.base .char) (stringUnits s))]).length) (.instanceOf sc.id ((((sc.fieldKinds.map FieldKind.defaultValue).set 0 (Value.object vm.heap.objects.length)).set 1 (Value.int 0)).set 6 (Value.int 0)))]) ((vm.heap.used + allocationSize (stringUnits s).length) + allocationSize sc.fieldKinds.length) vm.heap.maxMemory : Heap).objects.get? ((vm.heap.objects ++ [HeapObject.mk (Int.ofNat vm.heap.objects.length) (.arrayOf (.base .char) (stringUnits s))]).length) with
      | some ⟨_, HeapData.instanceOf cid fields⟩ =>
        match classById cid with
        | none => Except.error VmError.validationException
        | some cls =>
          if cls.name = "java/lang/String" then
            match fields.get? 0 with
            | some (Value.object arr2) => stringFromCharArray (Heap.mk ((vm.heap.objects ++ [HeapObject.mk (Int.ofNat vm.heap.objects.length) (.arrayOf (.base .char) (stringUnits s))]) ++ [HeapObject.mk (Int.ofNat (vm.heap.objects ++ [HeapObject.mk (Int.ofNat vm.heap.objects.length) (.arrayOf (.base .char) (stringUnits s))]).length) (.instanceOf sc.id ((((sc.fieldKinds.map FieldKind.defaultValue).set 0 (Value.object vm.heap.objects.length)).set 1 (Value.int 0)).set 6 (Value.int 0)))]) ((vm.heap.used + allocationSize (stringUnits s).length) + allocationSize sc.fieldKinds.length) vm.heap.maxMemory) arr2
            | _ => Except.error VmError.validationException
          else Except.error VmError.validationException
      | _ => Except.error VmError.validationException) = _
    rw [hgetStrF]
  have x2 : extractStrFromJavaLangString classById (Vm.mk (Heap.mk ((vm.heap.objects ++ [HeapObject.mk (Int.ofNat vm.heap.objects.length) (.arrayOf (.base .char) (stringUnits s))]) ++ [HeapObject.mk (Int.ofNat (vm.heap.objects ++ [HeapObject.mk (Int.ofNat vm.heap.objects.length) (.arrayOf (.base .char) (stringUnits s))]).length) (.instanceOf sc.id ((((sc.fieldKinds.map FieldKind.defaultValue).set 0 (Value.object vm.heap.objects.length)).set 1 (Value.int 0)).set 6 (Value.int 0)))]) ((vm.heap.used + allocationSize (stringUnits s).length) + allocationSize sc.fieldKinds.length) vm.heap.maxMemory) vm.statics vm.callStacks vm.throwableCallStacks) ((vm.heap.objects ++ [HeapObject.mk (Int.ofNat vm.heap.objects.length) (.arrayOf (.base .char) (stringUnits s))]).length)
      = (if sc.name = "java/lang/String" then
          match (((((sc.fieldKinds.map FieldKind.defaultValue).set 0 (Value.object vm.heap.objects.length)).set 1 (Value.int 0)).set 6 (Value.int 0))).get? 0 with
          | some (Value.object arr2) => stringFromCharArray (Heap.mk ((vm.heap.objects ++ [HeapObject.mk (Int.ofNat vm.heap.objects.length) (.arrayOf (.base .char) (stringUnits s))]) ++ [HeapObject.mk (Int.ofNat (vm.heap.objects ++ [HeapObject.mk (Int.ofNat vm.heap.objects.length) (.arrayOf (.base .char) (stringUnits s))]).length) (.instanceOf sc.id ((((sc.fieldKinds.map FieldKind.defaultValue).set 0 (Value.object vm.heap.objects.length)).set 1 (Value.int 0)).set 6 (Value.int 0)))]) ((vm.heap.used + allocationSize (stringUnits s).length) + allocationSize sc.fieldKinds.length) vm.heap.maxMemory) arr2
          | _ => Except.error VmError.validationException
        else Except.error VmError.validationException) := by
    rw [x1, hcid]
  have x3 : extractStrFromJavaLangString classById (Vm.mk (Heap.mk ((vm.heap.objects ++ [HeapObject.mk (Int.ofNat vm.heap.objects.length) (.arrayOf (.base .char) (stringUnits s))]) ++ [HeapObject.mk (Int.ofNat (vm.heap.objects ++ [HeapObject.mk (Int.ofNat vm.heap.objects.length) (.arrayOf (.base .char) (stringUnits s))]).length) (.instanceOf sc.id ((((sc.fieldKinds.map FieldKind.defaultValue).set 0 (Value.object vm.heap.objects.length)).set 1 (Value.int 0)).set 6 (Value.int 0)))]) ((vm.heap.used + allocationSize (stringUnits s).length) + allocationSize sc.fieldKinds.length) vm.heap.maxMemory) vm.statics vm.callStacks vm.throwableCallStacks) ((vm.heap.objects ++ [HeapObject.mk (Int.ofNat vm.heap.objects.length) (.arrayOf (.base .char) (stringUnits s))]).length)
      = (match (((((sc.fieldKinds.map FieldKind.defaultValue).set 0 (Value.object vm.heap.objects.length)).set 1 (Value.int 0)).set 6 (Value.int 0))).get? 0 with
        | some (Value.object arr2) => stringFromCharArray (Heap.mk ((vm.heap.objects ++ [HeapObject.mk (Int.ofNat vm.heap.objects.length) (.arrayOf (.base .char) (stringUnits s))]) ++ [HeapObject.mk (Int.ofNat (vm.heap.objects ++ [HeapObject.mk (Int.ofNat vm.heap.objects.length) (.arrayOf (.base .char) (stringUnits s))]).length) (.instanceOf sc.id ((((sc.fieldKinds.map FieldKind.defaultValue).set 0 (Value.object vm.heap.objects.length)).set 1 (Value.int 0)).set 6 (Value.int 0)))]) ((vm.heap.used + allocationSize (stringUnits s).length) + allocationSize sc.fieldKinds.length) vm.heap.maxMemory) arr2
        | _ => Except.error VmError.validationException) := by
    rw [x2, if_pos hname]
  have x4 : extractStrFromJavaLangString classById (Vm.mk (Heap.mk ((vm.heap.objects ++ [HeapObject.mk (Int.ofNat vm.heap.objects.length) (.arrayOf (.base .char) (stringUnits s))]) ++ [HeapObject.mk (Int.ofNat (vm.heap.objects ++ [HeapObject.mk (Int.ofNat vm.heap.objects.length) (.arrayOf (.base .char) (stringUnits s))]).length) (.instanceOf sc.id ((((sc.fieldKinds.map FieldKind.defaultValue).set 0 (Value.object vm.heap.objects.length)).set 1 (Value.int 0)).set 6 (Value.int 0)))]) ((vm.heap.used + allocationSize (stringUnits s).length) + allocationSize sc.fieldKinds.length) vm.heap.maxMemory) vm.statics vm.callStacks vm.throwableCallStacks) ((vm.heap.objects ++ [HeapObject.mk (Int.ofNat vm.heap.objects.length) (.arrayOf (.base .char) (stringUnits s))]).length)
      = stringFromCharArray (Heap.mk ((vm.heap.objects ++ [HeapObject.mk (Int.ofNat vm.heap.objects.length) (.arrayOf (.base .char) (stringUnits s))]) ++ [HeapObject.mk (Int.ofNat (vm.heap.objects ++ [HeapObject.mk (Int.ofNat vm.heap.objects.length) (.arrayOf (.base .char) (stringUnits s))]).length) (.instanceOf sc.id ((((sc.fieldKinds.map FieldKind.defaultValue).set 0 (Value.object vm.heap.objects.length)).set 1 (Value.int 0)).set 6 (Value.int 0)))]) ((vm.heap.used + allocationSize (stringUnits s).length) + allocationSize sc.fieldKinds.length) vm.heap.maxMemory) (vm.heap.objects.length) := by
    rw [x3, hf0]
  have t1 : stringFromCharArray (Heap.mk ((vm.heap.objects ++ [HeapObject.mk (Int.ofNat vm.heap.objects.length) (.arrayOf (.base .char) (stringUnits s))]) ++ [HeapObject.mk (Int.ofNat (vm.heap.objects ++ [HeapObject.mk (Int.ofNat vm.heap.objects.length) (.arrayOf (.base .char) (stringUnits s))]).length) (.instanceOf sc.id ((((sc.fieldKinds.map FieldKind.defaultValue).set 0 (Value.object vm.heap.objects.length)).set 1 (Value.int 0)).set 6 (Value.int 0)))]) ((vm.heap.used + allocationSize (stringUnits s).length) + allocationSize sc.fieldKinds.length) vm.heap.maxMemory) (vm.heap.objects.length)
      = (match collectCodeUnits ((stringUnits s)) with
        | some us =>
          match decodeUtf16 us with
          | some cs => Except.ok (String.mk cs)
          | none => Except.error VmError.validationException
        | none => Except.error VmError.validationException) := by
    show (match (Heap.mk ((vm.heap.objects ++ [HeapObject.mk (Int.ofNat vm.heap.objects.length) (.arrayOf (.base .char) (stringUnits s))]) ++ [HeapObject.mk (Int.ofNat (vm.heap.objects ++ [HeapObject.mk (Int.ofNat vm.heap.objects.length) (.arrayOf (.base .char) (stringUnits s))]).length) (.instanceOf sc.id ((((sc.fieldKinds.map FieldKind.defaultValue).set 0 (Value.object vm.heap.objects.length)).set 1 (Value.int 0)).set 6 (Value.int 0)))]) ((vm.heap.used + allocationSize (stringUnits s).length) + allocationSize sc.fieldKinds.length) vm.heap.maxMemory : Heap).objects.get? (vm.heap.objects.length) with
      | some ⟨_, HeapData.arrayOf et2 elems2⟩ =>
        match collectCodeUnits elems2 with
        | some us =>
          match decodeUtf16 us with
          | some cs => Except.ok (String.mk cs)
          | none => Except.error VmError.validationException
        | none => Except.error VmError.validationException
      | _ => Except.error VmError.validationException) = _
    rw [hgetArrF]
  have t2 : stringFromCharArray (Heap.mk ((vm.heap.objects ++ [HeapObject.mk (Int.ofNat vm.heap.objects.length) (.arrayOf (.base .char) (stringUnits s))]) ++ [HeapObject.mk (Int.ofNat (vm.heap.objects ++ [HeapObject.mk (Int.ofNat vm.heap.objects.length) (.arrayOf (.base .char) (stringUnits s))]).length) (.instanceOf sc.id ((((sc.fieldKinds.map FieldKind.defaultValue).set 0 (Value.object vm.heap.objects.length)).set 1 (Value.int 0)).set 6 (Value.int 0)))]) ((vm.heap.used + allocationSize (stringUnits s).length) + allocationSize sc.fieldKinds.length) vm.heap.maxMemory) (vm.heap.objects.length)
      = (match decodeUtf16 (encodeUtf16 s.data) with
        | some cs => Except.ok (String.mk cs)
        | none => Except.error VmError.validationException) := by
    rw [t1, hcoll]
  have t3 : stringFromCharArray (Heap.mk ((vm.heap.objects ++ [HeapObject.mk (Int.ofNat vm.heap.objects.length) (.arrayOf (.base .char) (stringUnits s))]) ++ [HeapObject.mk (Int.ofNat (vm.heap.objects ++ [HeapObject.mk (Int.ofNat vm.heap.objects.length) (.arrayOf (.base .char) (stringUnits s))]).length) (.instanceOf sc.id ((((sc.fieldKinds.map FieldKind.defaultValue).set 0 (Value.object vm.heap.objects.length)).set 1 (Value.int 0)).set 6 (Value.int 0)))]) ((vm.heap.used + allocationSize (stringUnits s).length) + allocationSize sc.fieldKinds.length) vm.heap.maxMemory) (vm.heap.objects.length) = Except.ok (String.mk s.data) := by
    rw [t2, decode_encode_utf16]
  have hextract : extractStrFromJavaLangString classById (Vm.mk (Heap.mk ((vm.heap.objects ++ [HeapObject.mk (Int.ofNat vm.heap.objects.length) (.arrayOf (.base .char) (stringUnits s))]) ++ [HeapObject.mk (Int.ofNat (vm.heap.objects ++ [HeapObject.mk (Int.ofNat vm.heap.objects.length) (.arrayOf (.base .char) (stringUnits s))]).length) (.instanceOf sc.id ((((sc.fieldKinds.map FieldKind.defaultValue).set 0 (Value.object vm.heap.objects.length)).set 1 (Value.int 0)).set 6 (Value.int 0)))]) ((vm.heap.used + allocationSize (stringUnits s).length) + allocationSize sc.fieldKinds.length) vm.heap.maxMemory) vm.statics vm.callStacks vm.throwableCallStacks) ((vm.heap.objects ++ [HeapObject.mk (Int.ofNat vm.heap.objects.length) (.arrayOf (.base .char) (stringUnits s))]).length) = Except.ok s := by
    rw [x4, t3, stringMk_data]
  exact ⟨Vm.mk (Heap.mk ((vm.heap.objects ++ [HeapObject.mk (Int.ofNat vm.heap.objects.length) (.arrayOf (.base .char) (stringUnits s))]) ++ [HeapObject.mk (Int.ofNat (vm.heap.objects ++ [HeapObject.mk (Int.ofNat vm.heap.objects.length) (.arrayOf (.base .char) (stringUnits s))]).length) (.instanceOf sc.id ((((sc.fieldKinds.map FieldKind.defaultValue).set 0 (Value.object vm.heap.objects.length)).set 1 (Value.int 0)).set 6 (Value.int 0)))]) ((vm.heap.used + allocationSize (stringUnits s).length) + allocationSize sc.fieldKinds.length) vm.heap.maxMemory) vm.statics vm.callStacks vm.throwableCallStacks, (vm.heap.objects.length), ((vm.heap.objects ++ [HeapObject.mk (Int.ofNat vm.heap.objects.length) (.arrayOf (.base .char) (stringUnits s))]).length), hmain, ⟨Int.ofNat (vm.heap.objects.length), hgetArrF⟩,
    ⟨Int.ofNat ((vm.heap.objects ++ [HeapObject.mk (Int.ofNat vm.heap.objects.length) (.arrayOf (.base .char) (stringUnits s))]).length), ((((sc.fieldKinds.map FieldKind.defaultValue).set 0 (Value.object vm.heap.objects.length)).set 1 (Value.int 0)).set 6 (Value.int 0)), hgetStrF, hf0, hf1, hf6, hfo⟩, hextract⟩

/-- C4 witness: constructing the concrete string hi on a fresh vm and
extracting it back. -/
theorem java_lang_string_roundtrip_witness :
    ∃ (vmF : Vm) (strRef : Nat),
      newJavaLangStringObject [] execNop resolveW vmEmpty stackEmpty "hi"
        = .ok (vmF, stackEmpty, .ok strRef)
      ∧ extractStrFromJavaLangString classByIdW vmF strRef = .ok "hi" := by
  obtain ⟨vmF, arr, strRef, h1, h2, h3, h4⟩ :=
    java_lang_string_roundtrip [] execNop resolveW classByIdW vmEmpty stackEmpty
      "hi" strClass rfl rfl rfl (by decide) (by decide)
  exact ⟨vmF, strRef, h1, h4⟩

/-- C7 witness: a concrete non-native invocation through an interpreter
oracle that returns immediately. -/
theorem invoke_pops_pushed_frame_witness :
    plainCm.method.isNative = false
    ∧ stackEmpty.addFrame plainCm none [] = .ok ⟨[⟨[], [], 0⟩]⟩
    ∧ execNop vmEmpty ⟨[⟨[], [], 0⟩]⟩ = .ok (vmEmpty, ⟨[⟨[], [], 0⟩]⟩, .ok none)
    ∧ ∃ stack3, invoke [] execNop vmEmpty stackEmpty plainCm none []
        = .ok (vmEmpty, stack3, .ok none)
      ∧ stack3.frames.length = stackEmpty.frames.length :=
  ⟨rfl, rfl, rfl,
   invoke_pops_pushed_frame [] execNop vmEmpty vmEmpty stackEmpty ⟨[⟨[], [], 0⟩]⟩
     ⟨[⟨[], [], 0⟩]⟩ plainCm none [] (.ok none) rfl rfl rfl rfl⟩

end RJVM
